import Mathlib

/-!
Verification of the Minigolf physics simulation's ball/terrain collision engine.

The JavaScript source is embedded shallowly: p5.Vector values become the
real-valued `Vec` structure, JS numbers become `ℝ` (the idealisation of the
engine's float arithmetic; where the source relies on IEEE `Infinity` the
embedding models it explicitly and says so), JS booleans stored in fields
become `Bool`, and branch conditions become classical propositions.
-/

namespace Minigolf

open scoped Classical

noncomputable section

/-- A 2D vector over the reals, modelling the p5.Vector values used by the
simulation (the simulation never uses the z component). -/
structure Vec where
  x : ℝ
  y : ℝ

/-- JavaScript's Math.atan2, as the argument of the complex number x + y*I. -/
def atan2 (y x : ℝ) : ℝ := Complex.arg ⟨x, y⟩

namespace Vec

/-- p5.Vector.add. -/
def add (a b : Vec) : Vec := ⟨a.x + b.x, a.y + b.y⟩

/-- p5.Vector.sub. -/
def sub (a b : Vec) : Vec := ⟨a.x - b.x, a.y - b.y⟩

/-- p5.Vector.mult by a scalar. -/
def smul (a : Vec) (k : ℝ) : Vec := ⟨a.x * k, a.y * k⟩

/-- p5.Vector.dot. -/
def dot (a b : Vec) : ℝ := a.x * b.x + a.y * b.y

/-- The z component of p5.Vector.cross of two plane vectors. -/
def cross (a b : Vec) : ℝ := a.x * b.y - a.y * b.x

/-- p5.Vector.mag. -/
def mag (a : Vec) : ℝ := Real.sqrt (a.x * a.x + a.y * a.y)

/-- p5.Vector.normalize: divide by the magnitude unless it is zero. -/
def normalize (a : Vec) : Vec := if a.mag = 0 then a else a.smul (1 / a.mag)

/-- p5.Vector.setMag: normalize, then scale to the requested magnitude. -/
def setMag (a : Vec) (n : ℝ) : Vec := a.normalize.smul n

/-- p5.Vector.rotate: p5 computes the new heading `atan2(y, x) + ang` and
rebuilds the vector from it at the old magnitude. -/
def rotate (a : Vec) (ang : ℝ) : Vec :=
  ⟨Real.cos (atan2 a.y a.x + ang) * a.mag, Real.sin (atan2 a.y a.x + ang) * a.mag⟩

/-- p5.Vector.angleBetween: the arccos of the clamped normalised dot product,
signed by the z component of the cross product (`Math.sign(cross || 1)`). -/
def angleBetween (a b : Vec) : ℝ :=
  Real.arccos (min 1 (max (-1) (a.dot b / (a.mag * b.mag)))) *
    (if a.cross b = 0 then 1 else if 0 < a.cross b then 1 else -1)

end Vec

/-- The sign function of src/physics/math.js: 0 when the value is 0 or its
absolute value is below the minimum, otherwise ±1. -/
def jsSign (value mn : ℝ) : ℝ :=
  if value = 0 ∨ |value| < mn then 0 else if 0 < value then 1 else -1

/-! ### Constants (physics.js) -/

/-- How many meters an object must have moved into terrain before a collision
is detected. -/
def COLLISION_THRESHOLD : ℝ := 0.001

/-- Speed along the collision normal below which an air reflection turns into
rolling. -/
def BOUNCING_THRESHOLD : ℝ := 0.1

/-! ### Terrain data model (terrainSegment.js, terrainCorner.js, terrainPolygon.js) -/

/-- The direction constants DIR_TP, DIR_BTM, DIR_LFT, DIR_RGT and DIR_MID of
canvas.js, as far as corners use them. -/
inductive Dir where
  | tp
  | btm
  | lft
  | rgt
  | mid
deriving DecidableEq

/-- A terrain segment with its derived collision geometry, mirroring the
fields of the TerrainSegment class (the `type` tag is replaced by the
`CollisionObject` sum type below). -/
structure TerrainSegment where
  startPoint : Vec
  endPoint : Vec
  direction : Vec
  normal : Vec
  distance : ℝ
  endBorderNormal : Vec
  endBorderDistance : ℝ
  startBorderNormal : Vec
  startBorderDistance : ℝ

/-- The TerrainSegment constructor: derives direction, unit normal, line
offset and the two border half-planes from the two end points. -/
def mkTerrainSegment (startPoint endPoint : Vec) : TerrainSegment :=
  let direction := endPoint.sub startPoint
  let normal := (Vec.mk direction.y (-direction.x)).setMag 1
  let endBorderNormal := direction.setMag 1
  let startBorderNormal := endBorderNormal.smul (-1)
  { startPoint := startPoint
    endPoint := endPoint
    direction := direction
    normal := normal
    distance := startPoint.dot normal
    endBorderNormal := endBorderNormal
    endBorderDistance := endPoint.dot endBorderNormal
    startBorderNormal := startBorderNormal
    startBorderDistance := startPoint.dot startBorderNormal }

/-- A convex corner of a terrain polygon (TerrainCorner class). -/
structure TerrainCorner where
  position : Vec
  horizontalLocation : Dir
  verticalLocation : Dir

/-- A terrain polygon: its segments and convex corners. -/
structure TerrainPolygon where
  segments : List TerrainSegment
  corners : List TerrainCorner

/-- The tagged "segment or corner" collision object (the JS code stores a
TERRAIN_SEGMENT / TERRAIN_CORNER tag in a `type` field). -/
inductive CollisionObject where
  | seg (s : TerrainSegment)
  | corner (c : TerrainCorner)

/-- A circle (the ball's body): center position and diameter. -/
structure Circle where
  position : Vec
  diameter : ℝ

/-- Circle.getRadius. -/
def Circle.getRadius (c : Circle) : ℝ := c.diameter / 2

/-- The mutable state of a Ball object. `oldCollisionDistance` is `none` when
the JS field holds `Infinity` (its reset value). -/
structure Ball where
  body : Circle
  mass : ℝ
  rollResistanceCoefficient : ℝ
  dm : ℝ
  groundSegment : Option TerrainSegment
  groundTerrain : Option TerrainPolygon
  velocity : Vec
  airAcceleration : Vec
  segmentAcceleration : Vec
  collision : Bool
  collided : Bool
  collisionTerrain : Option TerrainPolygon
  collisionSegment : Option TerrainSegment
  collisionSegmentNormal : Option Vec
  correctionDeltaSum : ℝ
  loopCounter : ℕ
  oldCollisionDistance : Option ℝ

/-- The external state the engine reads: the live terrain collection, the
gravity scalar and the wind velocity vector. -/
structure Env where
  terrainArray : List TerrainPolygon
  gravity : ℝ
  windVelocity : Vec

/-! ### Ball.getSegmentCollisionDistance -/

/-- Ball.getSegmentCollisionDistance: how far the ball has moved into a given
terrain segment, or 0 when it misses the supporting line or the segment's
finite span (each test inflated by the ball radius). -/
def Ball.getSegmentCollisionDistance (b : Ball) (terrainSegment : TerrainSegment)
    (position : Vec) : ℝ :=
  let distance := terrainSegment.distance - position.dot terrainSegment.normal
  if -b.body.getRadius < distance then
    let leftBorderDistance :=
      terrainSegment.endBorderDistance - position.dot terrainSegment.endBorderNormal
    let rightBorderDistance :=
      terrainSegment.startBorderDistance - position.dot terrainSegment.startBorderNormal
    if -b.body.getRadius < leftBorderDistance ∧ -b.body.getRadius < rightBorderDistance then
      distance + b.body.getRadius
    else 0
  else 0

/-! ### Ball.getCornerOverwrite -/

/-- Ball.getCornerOverwrite: the ball is guaranteed to be outside the
polygon owning this corner — its center is farther from the corner than
radius − threshold and the corner's recorded locations agree with the ball
being on the outside on each axis (Mid always agrees). -/
def Ball.getCornerOverwrite (b : Ball) (corner : TerrainCorner)
    (cornerBallCenterDistance : ℝ) : Prop :=
  b.body.getRadius - COLLISION_THRESHOLD < cornerBallCenterDistance ∧
  ((corner.verticalLocation = Dir.tp ∧ corner.position.y < b.body.position.y) ∨
   (corner.verticalLocation = Dir.btm ∧ b.body.position.y < corner.position.y) ∨
   corner.verticalLocation = Dir.mid) ∧
  ((corner.horizontalLocation = Dir.rgt ∧ corner.position.x < b.body.position.x) ∨
   (corner.horizontalLocation = Dir.lft ∧ b.body.position.x < corner.position.x) ∨
   corner.horizontalLocation = Dir.mid)

/-! ### Per-polygon collision detection (Ball.getTerrainObjectCollisionInfo) -/

/-- The per-polygon collision result when a winning segment exists; `none`
models the JS record with a null collisionSegment, collisionDistance 0 and
correctionDelta Infinity. -/
structure SegmentWinner where
  segment : TerrainSegment
  normal : Vec
  distance : ℝ
  correctionDelta : ℝ

/-- The `ballNormalVelocity` of the winner-selection loop: the ball's speed
projected (through heading angles) onto the reversed segment normal. -/
def Ball.segmentNormalVelocity (b : Ball) (s : TerrainSegment) : ℝ :=
  b.velocity.mag *
    Real.cos (atan2 (-s.normal.y) (-s.normal.x) - atan2 b.velocity.y b.velocity.x)

/-- One iteration of the winner-selection loop of
Ball.getTerrainObjectCollisionInfo over a (segment, recorded distance) pair. -/
def Ball.collisionWinnerStep (b : Ball) (acc : Option SegmentWinner)
    (p : TerrainSegment × ℝ) : Option SegmentWinner :=
  if 0 < p.2 then
    let ballNormalVelocity := b.segmentNormalVelocity p.1
    -- In JS a zero approach speed makes abs(distance / ballNormalVelocity)
    -- equal Infinity, which is never below the stored correction delta
    -- (itself Infinity while no winner is stored), so the candidate is kept out.
    if ballNormalVelocity = 0 then acc
    else
      let newCorrectionDelta := |p.2 / ballNormalVelocity|
      if (match acc with
          | none => True
          | some w => newCorrectionDelta < w.correctionDelta) then
        some ⟨p.1, p.1.normal, p.2, newCorrectionDelta⟩
      else acc
  else acc

/-- Ball.getTerrainObjectCollisionInfo: runs the corner forEach (which
reassigns the overwrite flag on every corner, so the final flag is the last
corner's) and, unless that flag is set, the winner-selection loop. -/
def Ball.getTerrainObjectCollisionInfo (b : Ball) (segments : List TerrainSegment)
    (segmentCollisionDistances : List ℝ) (corners : List TerrainCorner) :
    Option SegmentWinner :=
  let cornerOverwrite := corners.foldl
    (fun _ corner =>
      b.getCornerOverwrite corner ((b.body.position.sub corner.position).mag)) False
  if cornerOverwrite then none
  else (segments.zip segmentCollisionDistances).foldl b.collisionWinnerStep none

/-! ### Cross-polygon collision detection (Ball.getTerrainArrayCollisionInfo) -/

/-- The per-terrain inner loop of Ball.getTerrainArrayCollisionInfo: collects
each segment's collision distance while it stays above the collision
threshold; the scan aborts (`none`) at the first segment at or below the
threshold, and only from the last segment's iteration is the per-polygon
winner evaluation reached. -/
def Ball.scanSegmentDistances (b : Ball) : List TerrainSegment → Option (List ℝ)
  | [] => none
  | [s] =>
    let d := b.getSegmentCollisionDistance s b.body.position
    if COLLISION_THRESHOLD < d then some [d] else none
  | s :: s' :: rest =>
    let d := b.getSegmentCollisionDistance s b.body.position
    if COLLISION_THRESHOLD < d then (Ball.scanSegmentDistances b (s' :: rest)).map (d :: ·)
    else none

/-- The winner a single polygon contributes inside
Ball.getTerrainArrayCollisionInfo: the threshold scan followed by
Ball.getTerrainObjectCollisionInfo. -/
def Ball.polyWinner (b : Ball) (terrain : TerrainPolygon) : Option SegmentWinner :=
  match b.scanSegmentDistances terrain.segments with
  | none => none
  | some ds => b.getTerrainObjectCollisionInfo terrain.segments ds terrain.corners

/-- The result record of Ball.getTerrainArrayCollisionInfo. -/
structure ArrayCollisionInfo where
  collisionTerrain : Option TerrainPolygon
  collisionSegment : Option TerrainSegment
  collisionSegmentNormal : Option Vec
  collisionDistance : ℝ
  correctionDelta : ℝ

/-- One terrain's iteration of the forEach in
Ball.getTerrainArrayCollisionInfo: a polygon winner unconditionally
overwrites the stored collision; only on an exact correctionDelta tie the
stored normal is summed with the new winner's and renormalized. The `getD`
default is unreachable: a tie needs a previously stored (strictly positive)
correctionDelta, which is stored only together with a normal. -/
def Ball.terrainStep (b : Ball) (acc : ArrayCollisionInfo) (terrain : TerrainPolygon) :
    ArrayCollisionInfo :=
  match b.polyWinner terrain with
  | none => acc
  | some w =>
    { collisionTerrain := some terrain
      collisionSegment := some w.segment
      collisionSegmentNormal := some
        (if w.correctionDelta = acc.correctionDelta then
          ((acc.collisionSegmentNormal.getD ⟨0, 0⟩).add w.normal).normalize
        else w.normal)
      collisionDistance := w.distance
      correctionDelta := w.correctionDelta }

/-- Ball.getTerrainArrayCollisionInfo: folds the per-terrain step over the
terrain array, starting from the empty record (correctionDelta 0). -/
def Ball.getTerrainArrayCollisionInfo (E : Env) (b : Ball) : ArrayCollisionInfo :=
  E.terrainArray.foldl b.terrainStep ⟨none, none, none, 0, 0⟩

/-! ### Accelerations -/

/-- Ball.getAirAcceleration: quadratic drag against the wind-relative
velocity plus gravity, scaled by the time slice. -/
def Ball.getAirAcceleration (E : Env) (b : Ball) (delta : ℝ) : Vec :=
  let windVDifference := b.velocity.sub E.windVelocity
  ⟨-b.dm * windVDifference.mag * windVDifference.x * delta,
   -(E.gravity + b.dm * windVDifference.mag * windVDifference.y) * delta⟩

/-- An all-zero segment standing in for the JS null references the embedded
code never dereferences on the paths the theorems below traverse. -/
def dummySegment : TerrainSegment :=
  ⟨⟨0, 0⟩, ⟨0, 0⟩, ⟨0, 0⟩, ⟨0, 0⟩, 0, ⟨0, 0⟩, 0, ⟨0, 0⟩, 0⟩

/-- Ball.getSegmentAcceleration: slope and rolling-friction acceleration
along the (downhill-oriented) ground segment direction, plus the horizontal
air acceleration. -/
def Ball.getSegmentAcceleration (E : Env) (b : Ball) (horizontalAirAcc delta : ℝ) : Vec :=
  let seg := b.groundSegment.getD dummySegment
  let segAngleSin := |seg.direction.y| / seg.direction.mag
  let segAngleCos := |seg.direction.x| / seg.direction.mag
  let rrc := b.rollResistanceCoefficient
  let mn := E.gravity * rrc * segAngleCos * delta
  let sgn := jsSign b.velocity.x mn
  let segDir := seg.direction.smul (if 0 ≤ seg.direction.y then -1 else 1)
  let segAcc := E.gravity * (segAngleSin - sgn * rrc * segAngleCos) * delta
  segDir.setMag (segAcc + horizontalAirAcc)

/-- Ball.addReflectionAcceleration: an axis is accumulated only when its
acceleration magnitude stays below the velocity's magnitude on that axis;
the vertical-segment flag forces the zero-x-accumulate-y branch. -/
def Ball.addReflectionAcceleration (b : Ball) (reflectionAcceleration : Vec)
    (segmentVertical : Prop) : Ball :=
  let xOk := |reflectionAcceleration.x| < |b.velocity.x|
  let yOk := |reflectionAcceleration.y| < |b.velocity.y|
  if xOk ∧ yOk then {b with velocity := b.velocity.add reflectionAcceleration}
  else if yOk ∨ segmentVertical then
    {b with velocity := ⟨0, b.velocity.y + reflectionAcceleration.y⟩}
  else if xOk then
    {b with velocity := ⟨b.velocity.x + reflectionAcceleration.x, 0⟩}
  else b

/-! ### Reflections -/

/-- The `ballNormalVelocity` computation of Ball.reflectInAir: the velocity's
magnitude times the cosine of the angle between the normal's heading and the
velocity's heading. -/
def ballNormalVelocityOf (n v : Vec) : ℝ :=
  v.mag * Real.cos (atan2 n.y n.x - atan2 v.y v.x)

/-- The mirror step of Ball.reflectInAir: rotate the velocity by −2 times the
angle between the collision normal and the velocity, then negate it. -/
def reflectStep (collisionNormal v : Vec) : Vec :=
  (v.rotate (-(collisionNormal.angleBetween v) * 2)).smul (-1)

/-- The energy-loss step of Ball.reflectInAir: subtract 20% of the velocity's
normal component along the collision normal. -/
def deflateStep (collisionNormal v : Vec) : Vec :=
  v.sub (collisionNormal.smul (ballNormalVelocityOf collisionNormal v * 0.2))

/-- Ball.reflectOnGround. On a non-vertical segment the velocity is
re-projected onto the segment direction preserving |velocity.x|; otherwise it
is negated. Then the fresh segment acceleration is applied unless it would
exceed the speed, in which case the ball stops. -/
def Ball.reflectOnGround (E : Env) (b : Ball) (collisionObject : CollisionObject)
    (segmentAcc : Vec) (delta : ℝ) : Ball :=
  let v₀ := b.velocity.sub (segmentAcc.smul (b.correctionDeltaSum / delta))
  let collisionSegmentSgn :=
    match collisionObject with
    | .seg s => jsSign s.direction.x 0
    | .corner _ => (0 : ℝ)
  let b₁ :=
    if collisionSegmentSgn ≠ 0 then
      let velocitySgn : ℝ := if jsSign v₀.x 0 ≠ collisionSegmentSgn then -1 else 1
      match collisionObject with
      | .seg s =>
        {b with groundTerrain := b.collisionTerrain, groundSegment := some s,
                velocity := (s.direction.smul velocitySgn).setMag |v₀.x|}
      | .corner _ => {b with velocity := v₀}  -- unreachable: corners have sign 0
    else
      {b with velocity := v₀.smul (-1)}
  let airAcc := Ball.getAirAcceleration E b₁ b.correctionDeltaSum
  let segmentAcc2 := Ball.getSegmentAcceleration E b₁ airAcc.x b.correctionDeltaSum
  let b₂ :=
    if segmentAcc2.mag < b₁.velocity.mag then
      {b₁ with velocity := b₁.velocity.add segmentAcc2}
    else {b₁ with velocity := ⟨0, 0⟩}
  {b₂ with body :=
    {b₂.body with position := b₂.body.position.add (b₂.velocity.smul b.correctionDeltaSum)}}

/-- Ball.reflectInAir: subtract the already-spent share of the air
acceleration, mirror and deflate the velocity (when it is nonzero), then
either hand over to rolling (small normal velocity against a leftward
segment) or stay airborne with the clamped corrected air acceleration. -/
def Ball.reflectInAir (E : Env) (b : Ball) (collisionObject : CollisionObject)
    (collisionNormal : Vec) (delta : ℝ) : Ball :=
  let v₀ := b.velocity.sub (b.airAcceleration.smul (b.correctionDeltaSum / delta))
  let reflected : Vec × ℝ :=
    if 0 < v₀.mag then
      let v₂ := deflateStep collisionNormal (reflectStep collisionNormal v₀)
      (v₂, ballNormalVelocityOf collisionNormal v₂)
    else (v₀, 0)
  let v := reflected.1
  let ballNormalVelocity := reflected.2
  if ballNormalVelocity < BOUNCING_THRESHOLD ∧
      (match collisionObject with
       | .seg s => s.direction.x < 0
       | .corner _ => False) then
    match collisionObject with
    | .seg s =>
      Ball.reflectOnGround E
        {b with velocity := v, groundTerrain := b.collisionTerrain, groundSegment := some s}
        collisionObject ⟨0, 0⟩ delta
    | .corner _ => b  -- unreachable: the transition test requires a segment
  else
    let airAcc := Ball.getAirAcceleration E {b with velocity := v} b.correctionDeltaSum
    let segmentVertical :=
      match collisionObject with
      | .seg s => s.direction.x = 0
      | .corner _ => False
    let b₁ := Ball.addReflectionAcceleration
      {b with velocity := v, airAcceleration := airAcc} airAcc segmentVertical
    {b₁ with body :=
      {b₁.body with position := b₁.body.position.add (b₁.velocity.smul b.correctionDeltaSum)}}

/-! ### Ground departure and the frame driver -/

/-- Ball.getCollisionObjectAndNormal: the last corner of the collision
terrain whose overwrite test fires (with the radial normal), else the stored
collision segment and normal. -/
def Ball.getCollisionObjectAndNormal (b : Ball) : Option (CollisionObject × Vec) :=
  let corners := (b.collisionTerrain.map TerrainPolygon.corners).getD []
  let collisionCorner := corners.foldl
    (fun acc corner =>
      if b.getCornerOverwrite corner ((b.body.position.sub corner.position).mag) then
        some corner
      else acc) none
  match collisionCorner with
  | some c => some (.corner c, (b.body.position.sub c.position).normalize)
  | none =>
    match b.collisionSegment, b.collisionSegmentNormal with
    | some s, some n => some (.seg s, n)
    | _, _ => none  -- unreachable when `collided` is set

/-- Ball.isOffGround: probing slightly below the ground segment either finds
no span overlap (distance 0) or a ground-terrain corner overwrite fires
(this loop breaks at the first firing corner). -/
def Ball.isOffGround (b : Ball) : Prop :=
  match b.groundSegment with
  | none => False
  | some seg =>
    let corners := (b.groundTerrain.map TerrainPolygon.corners).getD []
    let testPosition := b.body.position.sub (seg.normal.smul COLLISION_THRESHOLD)
    let segmentCollisionDistance := b.getSegmentCollisionDistance seg testPosition
    (0 < segmentCollisionDistance ∧
      ∃ c ∈ corners, b.getCornerOverwrite c ((b.body.position.sub c.position).mag)) ∨
    segmentCollisionDistance = 0

/-- Ball.fallOffGround: rewind the ball to the ledge's corner, apply the
leftover air acceleration there, release it from the ground and return the
leftover sub-step duration. -/
def Ball.fallOffGround (E : Env) (b : Ball) (delta : ℝ) : Ball × ℝ :=
  let seg := b.groundSegment.getD dummySegment
  let segmentHorizontalDistance :=
    if seg.startPoint.x < b.body.position.x then b.body.position.x - seg.startPoint.x
    else if b.body.position.x < seg.endPoint.x then seg.endPoint.x - b.body.position.x
    else 0
  let ballMovementDistance := (b.velocity.smul delta).mag
  if 0 < ballMovementDistance then
    let correctionDelta := segmentHorizontalDistance / ballMovementDistance * delta
    let b₁ := {b with
      body := {b.body with position := b.body.position.sub (b.velocity.smul correctionDelta)},
      velocity := b.velocity.sub (b.segmentAcceleration.smul (correctionDelta / delta))}
    let airAcc := Ball.getAirAcceleration E b₁ correctionDelta
    let b₂ := Ball.addReflectionAcceleration b₁ airAcc (seg.direction.x = 0)
    let b₃ := {b₂ with
      body := {b₂.body with position := b₂.body.position.add (b₂.velocity.smul correctionDelta)},
      groundSegment := none}
    (b₃, correctionDelta)
  else ({b with groundSegment := none}, 0)

/-- Ball.moveOutOfTerrain: store the collision data, cap the correction time
by the sub-step duration and push the ball out, either along the reversed
velocity (default) or along the segment normal (fallback when re-colliding
with the own ground segment or when the penetration regressed). -/
def Ball.moveOutOfTerrain (b : Ball) (collisionInfo : ArrayCollisionInfo) (delta : ℝ) :
    Ball :=
  let collisionDistance := collisionInfo.collisionDistance
  let correctionDelta :=
    if delta < collisionInfo.correctionDelta then delta else collisionInfo.correctionDelta
  let correctionDeltaSum₀ := b.correctionDeltaSum + correctionDelta
  let correctionDeltaSum :=
    if delta < correctionDeltaSum₀ then delta else correctionDeltaSum₀
  let useNormalCorrection :=
    (match b.groundSegment with
     | some g => collisionInfo.collisionSegment = some g
     | none => False) ∨
    (match b.oldCollisionDistance with
     | some old => old < collisionDistance
     | none => False)  -- none is the Infinity reset value, never below a finite distance
  let correctionVector :=
    if useNormalCorrection then
      ((collisionInfo.collisionSegment.map TerrainSegment.normal).getD ⟨0, 0⟩).smul
        collisionDistance
    else b.velocity.smul (-correctionDelta)
  {b with collision := true, collided := true,
          collisionTerrain := collisionInfo.collisionTerrain,
          collisionSegment := collisionInfo.collisionSegment,
          collisionSegmentNormal := collisionInfo.collisionSegmentNormal,
          correctionDeltaSum := correctionDeltaSum,
          body := {b.body with position := b.body.position.add correctionVector},
          oldCollisionDistance := some collisionDistance}

/-- Ball.addAcceleration: air acceleration when airborne; otherwise segment
acceleration, with the velocity snapped to it when it vanishes. The ball then
moves by velocity × delta. -/
def Ball.addAcceleration (E : Env) (b : Ball) (delta : ℝ) : Ball :=
  let airAcceleration := Ball.getAirAcceleration E b delta
  let b₁ := {b with airAcceleration := airAcceleration, segmentAcceleration := (⟨0, 0⟩ : Vec)}
  let b₂ :=
    match b.groundSegment with
    | none => {b₁ with velocity := b₁.velocity.add airAcceleration}
    | some _ =>
      let segmentAcceleration := Ball.getSegmentAcceleration E b₁ airAcceleration.x delta
      let b' := {b₁ with segmentAcceleration := segmentAcceleration,
                         velocity := b₁.velocity.add segmentAcceleration}
      if segmentAcceleration.mag = 0 then {b' with velocity := segmentAcceleration} else b'
  {b₂ with body := {b₂.body with position := b₂.body.position.add (b₂.velocity.smul delta)}}

/-- Ball.resetCollisionInformation. -/
def Ball.resetCollisionInformation (b : Ball) : Ball :=
  {b with collision := false, collided := false, collisionTerrain := none,
          collisionSegment := none, collisionSegmentNormal := none,
          correctionDeltaSum := 0, loopCounter := 0, oldCollisionDistance := none}

/-- One body of the do-while loop in Ball.simulate (without the loop-counter
increment): collision correction, or reflection, or ledge departure; returns
the ball and the delta for the next iteration. -/
def Ball.simulateBody (E : Env) (b : Ball) (delta : ℝ) : Ball × ℝ :=
  let collisionInfo := Ball.getTerrainArrayCollisionInfo E b
  if collisionInfo.collisionDistance ≠ 0 then
    (Ball.moveOutOfTerrain b collisionInfo delta, delta)
  else
    let b' :=
      if b.collided = true then
        let br :=
          match Ball.getCollisionObjectAndNormal b with
          | some (collisionObject, collisionNormal) =>
            match b.groundSegment with
            | none => Ball.reflectInAir E b collisionObject collisionNormal delta
            | some _ => Ball.reflectOnGround E b collisionObject b.segmentAcceleration delta
          | none => b  -- unreachable: `collided` implies stored collision data
        ({br with collided := false}, br.correctionDeltaSum)
      else
        let bf := if b.isOffGround then Ball.fallOffGround E b delta else (b, delta)
        ({bf.1 with collision := false}, bf.2)
    ({b'.1 with correctionDeltaSum := 0}, b'.2)

/-- The do-while loop of Ball.simulate, driven by fuel that the 100-iteration
error check keeps it from exhausting. Over the exact reals the NaN/Infinity
velocity checks of the source head condition are uninhabited, so the head
check reduces to the loop-counter test. The Bool result is true when the
global state was set to STATE_ERROR. -/
def Ball.simulateLoop (E : Env) : ℕ → Ball → ℝ → Ball × Bool
  | 0, b, _ => (b, false)  -- fuel exhaustion, unreachable from Ball.simulate
  | fuel + 1, b, delta =>
    if 100 ≤ b.loopCounter then (b, true)
    else
      let s := Ball.simulateBody E b delta
      let b' := {s.1 with loopCounter := s.1.loopCounter + 1}
      if b'.collision = true then Ball.simulateLoop E fuel b' s.2
      else (b', false)

/-- Ball.simulate: accelerate and move for the frame, reset the collision
scratch state, then run the sub-stepping loop. -/
def Ball.simulate (E : Env) (b : Ball) (delta : ℝ) : Ball × Bool :=
  Ball.simulateLoop E 101 ((Ball.addAcceleration E b delta).resetCollisionInformation) delta

/-- The head-to-head step relation of the simulate loop: from one loop head
to the next, taken when the head error check does not fire and the body
leaves the collision flag set. -/
def SimStep (E : Env) (s t : Ball × ℝ) : Prop :=
  s.1.loopCounter < 100 ∧
  (let body := Ball.simulateBody E s.1 s.2
   let b' := {body.1 with loopCounter := body.1.loopCounter + 1}
   b'.collision = true ∧ t = (b', body.2))

/-! ### Concrete fixtures used by the witnesses and counterexamples -/

/-- A freshly constructed ball (diameter 0.4, mass 0.5, roll resistance 0.05,
as in initializeBall) at a chosen position with a chosen velocity. -/
def mkTestBall (position velocity : Vec) : Ball :=
  { body := ⟨position, 0.4⟩
    mass := 0.5
    rollResistanceCoefficient := 0.05
    dm := 0.05
    groundSegment := none
    groundTerrain := none
    velocity := velocity
    airAcceleration := ⟨0, 0⟩
    segmentAcceleration := ⟨0, 0⟩
    collision := false
    collided := false
    collisionTerrain := none
    collisionSegment := none
    collisionSegmentNormal := none
    correctionDeltaSum := 0
    loopCounter := 0
    oldCollisionDistance := none }

/-- A horizontal ground segment 0.19 below the origin (normal up); a ball of
radius 0.2 centered at the origin penetrates it by 0.01. -/
def segA : TerrainSegment :=
  ⟨⟨1, -0.19⟩, ⟨-1, -0.19⟩, ⟨-2, 0⟩, ⟨0, 1⟩, -0.19, ⟨-1, 0⟩, 1, ⟨1, 0⟩, 1⟩

/-- A horizontal ground segment 0.1 below the origin; a ball of radius 0.2
centered at the origin penetrates it by 0.1. -/
def segB : TerrainSegment :=
  ⟨⟨1, -0.1⟩, ⟨-1, -0.1⟩, ⟨-2, 0⟩, ⟨0, 1⟩, -0.1, ⟨-1, 0⟩, 1, ⟨1, 0⟩, 1⟩

/-- A horizontal ground segment on the x axis between x = 0 and x = 1. -/
def flatSeg : TerrainSegment :=
  ⟨⟨1, 0⟩, ⟨0, 0⟩, ⟨-1, 0⟩, ⟨0, 1⟩, 0, ⟨-1, 0⟩, 0, ⟨1, 0⟩, 1⟩

/-- The polygon owning segA, without corners. -/
def polyA : TerrainPolygon := ⟨[segA], []⟩

/-- The polygon owning segB, without corners. -/
def polyB : TerrainPolygon := ⟨[segB], []⟩

/-- The polygon owning the flat ground segment. -/
def polyFlat : TerrainPolygon := ⟨[flatSeg], []⟩

/-- A ball resting on the flat ground segment, tangent to it. -/
def restBall : Ball :=
  {mkTestBall ⟨0.5, 0.2⟩ ⟨0, 0⟩ with groundSegment := some flatSeg,
                                     groundTerrain := some polyFlat}

/-- A right/top corner 5 units away from the origin whose overwrite test
fires for a radius-0.2 ball at the origin. -/
def cornerOut : TerrainCorner := ⟨⟨-3, -4⟩, Dir.rgt, Dir.tp⟩

/-- A right/top corner whose location tests fail for a ball at the origin. -/
def cornerIn : TerrainCorner := ⟨⟨3, 4⟩, Dir.rgt, Dir.tp⟩

/-- An environment with the two one-segment polygons above, standard gravity
and no wind. -/
def envAB : Env := ⟨[polyA, polyB], 9.81, ⟨0, 0⟩⟩

/-- An environment without terrain, standard gravity and no wind. -/
def restEnv : Env := ⟨[], 9.81, ⟨0, 0⟩⟩

/-- A (segment, recorded distance) pair that the winner-selection loop can
actually store: positive distance and nonzero approach speed (a zero approach
speed yields an infinite correction delta in JS and is never stored). -/
@[reducible] def candidateOk (b : Ball) (p : TerrainSegment × ℝ) : Prop :=
  0 < p.2 ∧ b.segmentNormalVelocity p.1 ≠ 0

/-- The winner record the selection loop builds from a candidate pair. -/
@[reducible] def winnerOf (b : Ball) (p : TerrainSegment × ℝ) : SegmentWinner :=
  ⟨p.1, p.1.normal, p.2, |p.2 / b.segmentNormalVelocity p.1|⟩

/-! ## Helper lemmas -/

theorem Vec.mag_nonneg (a : Vec) : 0 ≤ a.mag := Real.sqrt_nonneg _

theorem Vec.mul_self_mag (a : Vec) : a.mag * a.mag = a.x * a.x + a.y * a.y :=
  Real.mul_self_sqrt (by nlinarith [sq_nonneg a.x, sq_nonneg a.y])

theorem Vec.mag_eq_zero_iff (a : Vec) : a.mag = 0 ↔ a = ⟨0, 0⟩ := by
  unfold Vec.mag
  rw [show a = Vec.mk a.x a.y from rfl]
  simp only [Vec.mk.injEq]
  rw [Real.sqrt_eq_zero (by nlinarith [sq_nonneg a.x, sq_nonneg a.y])]
  constructor
  · intro h; constructor <;> nlinarith [sq_nonneg a.x, sq_nonneg a.y]
  · rintro ⟨hx, hy⟩; rw [hx, hy]; ring

theorem Vec.mag_pos_of_ne (a : Vec) (h : a ≠ ⟨0, 0⟩) : 0 < a.mag := by
  rcases lt_or_eq_of_le a.mag_nonneg with h' | h'
  · exact h'
  · exact absurd (a.mag_eq_zero_iff.mp h'.symm) h

/-- The complex number packaging a vector's components is zero iff the vector
is the zero vector. -/
theorem Vec.complex_ne_zero (a : Vec) (h : a ≠ ⟨0, 0⟩) :
    (⟨a.x, a.y⟩ : ℂ) ≠ 0 := by
  intro hc
  apply h
  have hx : a.x = 0 := congrArg Complex.re hc
  have hy : a.y = 0 := congrArg Complex.im hc
  rw [show a = Vec.mk a.x a.y from rfl, hx, hy]

theorem Vec.abs_complex (a : Vec) : Complex.abs ⟨a.x, a.y⟩ = a.mag := by
  rw [Complex.abs_apply, Complex.normSq_mk]; rfl

/-- Cosine of a heading angle. -/
theorem cos_atan2 (a : Vec) (h : a ≠ ⟨0, 0⟩) :
    Real.cos (atan2 a.y a.x) = a.x / a.mag := by
  unfold atan2
  rw [Complex.cos_arg (a.complex_ne_zero h), Vec.abs_complex]

/-- Sine of a heading angle. -/
theorem sin_atan2 (a : Vec) : Real.sin (atan2 a.y a.x) = a.y / a.mag := by
  unfold atan2
  rw [Complex.sin_arg, Vec.abs_complex]

/-- Lagrange's identity in the plane. -/
theorem dot_sq_add_cross_sq (a b : Vec) :
    a.dot b * a.dot b + a.cross b * a.cross b =
      (a.x * a.x + a.y * a.y) * (b.x * b.x + b.y * b.y) := by
  unfold Vec.dot Vec.cross; ring

/-- The heading-angle projection of the ball-normal-velocity computation is
the dot product when the direction vector has unit length. -/
theorem ballNormalVelocityOf_eq_dot (n v : Vec) (h : n.mag = 1) :
    ballNormalVelocityOf n v = n.dot v := by
  by_cases hv : v = ⟨0, 0⟩
  · subst hv
    simp [ballNormalVelocityOf, Vec.mag, Vec.dot]
  · have hn : n ≠ ⟨0, 0⟩ := by
      intro hz
      rw [hz] at h
      simp [Vec.mag] at h
    have hvm : 0 < v.mag := v.mag_pos_of_ne hv
    unfold ballNormalVelocityOf
    rw [Real.cos_sub, cos_atan2 n hn, cos_atan2 v hv, sin_atan2, sin_atan2, h]
    unfold Vec.dot
    field_simp

/-- segmentNormalVelocity is the ball-normal-velocity against the reversed
segment normal. -/
theorem segmentNormalVelocity_eq (b : Ball) (s : TerrainSegment) :
    b.segmentNormalVelocity s =
      ballNormalVelocityOf ⟨-s.normal.x, -s.normal.y⟩ b.velocity := rfl

/-- A foldl that ignores its accumulator returns the image of the last
element (or the start value on the empty list). -/
theorem foldl_const_replace {α : Type} (f : α → Prop) (init : Prop) (l : List α)
    (c : α) (h : l.getLast? = some c) :
    l.foldl (fun _ x => f x) init = f c := by
  induction l generalizing init with
  | nil => simp at h
  | cons a t ih =>
    cases t with
    | nil =>
      simp only [List.getLast?_singleton, Option.some.injEq] at h
      subst h
      rfl
    | cons a' t' =>
      rw [List.foldl_cons]
      exact ih _ (by simpa using h)

/-- The threshold scan of getTerrainArrayCollisionInfo succeeds exactly on a
nonempty segment list all of whose collision distances lie above the
threshold, and then collects exactly those distances. -/
theorem scanSegmentDistances_eq (b : Ball) : ∀ segs : List TerrainSegment,
    b.scanSegmentDistances segs =
      if segs ≠ [] ∧ ∀ s ∈ segs,
          COLLISION_THRESHOLD < b.getSegmentCollisionDistance s b.body.position then
        some (segs.map (fun s => b.getSegmentCollisionDistance s b.body.position))
      else none
  | [] => by simp [Ball.scanSegmentDistances]
  | [s] => by
    simp only [Ball.scanSegmentDistances]
    by_cases h : COLLISION_THRESHOLD < b.getSegmentCollisionDistance s b.body.position
    · rw [if_pos h, if_pos ⟨by simp, by simpa using h⟩]
      simp
    · rw [if_neg h, if_neg (by simp [h])]
  | s :: s' :: rest => by
    simp only [Ball.scanSegmentDistances]
    rw [scanSegmentDistances_eq b (s' :: rest)]
    by_cases h : COLLISION_THRESHOLD < b.getSegmentCollisionDistance s b.body.position
    · rw [if_pos h]
      by_cases h2 : ∀ x ∈ s' :: rest,
          COLLISION_THRESHOLD < b.getSegmentCollisionDistance x b.body.position
      · rw [if_pos ⟨by simp, h2⟩, if_pos ⟨by simp, by simpa [h] using h2⟩]
        simp
      · rw [if_neg (fun hc => h2 hc.2), if_neg (fun hc => h2 fun x hx => hc.2 x (by simp [hx]))]
        simp
    · rw [if_neg h, if_neg (fun hc => h (hc.2 s (by simp)))]

theorem sqrt25 : Real.sqrt 25 = 5 := by
  rw [show (25 : ℝ) = 5 ^ 2 by norm_num]
  exact Real.sqrt_sq (by norm_num)

/-- A segment whose supporting line lies beyond the inflated radius
contributes no collision. -/
theorem getSegmentCollisionDistance_miss (b : Ball) (s : TerrainSegment) (p : Vec)
    (h : s.distance - p.dot s.normal ≤ -b.body.getRadius) :
    b.getSegmentCollisionDistance s p = 0 := by
  simp only [Ball.getSegmentCollisionDistance]
  rw [if_neg (not_lt.mpr h)]

/-- A positive-distance candidate with nonzero approach speed always replaces
an empty accumulator. -/
theorem collisionWinnerStep_none (b : Ball) (s : TerrainSegment) (d : ℝ)
    (hd : 0 < d) (hbnv : b.segmentNormalVelocity s ≠ 0) :
    b.collisionWinnerStep none (s, d) =
      some ⟨s, s.normal, d, |d / b.segmentNormalVelocity s|⟩ := by
  simp only [Ball.collisionWinnerStep]
  rw [if_pos hd, if_neg hbnv, if_pos trivial]

/-- Case analysis of one winner-selection iteration: the accumulator is kept,
or a valid candidate's winner record is stored. -/
theorem collisionWinnerStep_cases (b : Ball) (acc : Option SegmentWinner)
    (p : TerrainSegment × ℝ) :
    b.collisionWinnerStep acc p = acc ∨
      (candidateOk b p ∧ b.collisionWinnerStep acc p = some (winnerOf b p)) := by
  simp only [Ball.collisionWinnerStep]
  split_ifs with h1 h2 h3
  · left; rfl
  · right; exact ⟨⟨h1, h2⟩, rfl⟩
  · left; rfl
  · left; rfl

/-- One winner-selection iteration never increases the stored correction
delta. -/
theorem collisionWinnerStep_le (b : Ball) (acc : Option SegmentWinner)
    (p : TerrainSegment × ℝ) (w₀ : SegmentWinner) (hacc : acc = some w₀) :
    ∃ w, b.collisionWinnerStep acc p = some w ∧
      w.correctionDelta ≤ w₀.correctionDelta := by
  subst hacc
  simp only [Ball.collisionWinnerStep]
  split_ifs with h1 h2 h3
  · exact ⟨w₀, rfl, le_refl _⟩
  · exact ⟨winnerOf b p, rfl, le_of_lt h3⟩
  · exact ⟨w₀, rfl, le_refl _⟩
  · exact ⟨w₀, rfl, le_refl _⟩

/-- After processing a valid candidate, the stored correction delta is at
most the candidate's. -/
theorem collisionWinnerStep_dominates (b : Ball) (acc : Option SegmentWinner)
    (p : TerrainSegment × ℝ) (h : candidateOk b p) :
    ∃ w, b.collisionWinnerStep acc p = some w ∧
      w.correctionDelta ≤ (winnerOf b p).correctionDelta := by
  simp only [Ball.collisionWinnerStep]
  rw [if_pos h.1, if_neg h.2]
  split_ifs with h3
  · exact ⟨winnerOf b p, rfl, le_refl _⟩
  · cases acc with
    | none => exact absurd trivial h3
    | some w => exact ⟨w, rfl, not_lt.mp h3⟩

/-- Invariant of the winner-selection fold: the result is the accumulator or
a valid candidate's winner, it dominates every valid candidate of the list,
and it never exceeds an already-stored winner. -/
theorem winnerFold_inv (b : Ball) :
    ∀ (l : List (TerrainSegment × ℝ)) (acc : Option SegmentWinner),
    (l.foldl b.collisionWinnerStep acc = acc ∨
      ∃ p ∈ l, candidateOk b p ∧ l.foldl b.collisionWinnerStep acc = some (winnerOf b p)) ∧
    (∀ p ∈ l, candidateOk b p → ∃ w, l.foldl b.collisionWinnerStep acc = some w ∧
      w.correctionDelta ≤ (winnerOf b p).correctionDelta) ∧
    (∀ w₀, acc = some w₀ → ∃ w, l.foldl b.collisionWinnerStep acc = some w ∧
      w.correctionDelta ≤ w₀.correctionDelta)
  | [], acc => by
    refine ⟨Or.inl rfl, by simp, ?_⟩
    intro w₀ h
    exact ⟨w₀, by simp [h], le_refl _⟩
  | p :: t, acc => by
    obtain ⟨ih1, ih2, ih3⟩ := winnerFold_inv b t (b.collisionWinnerStep acc p)
    rw [List.foldl_cons]
    refine ⟨?_, ?_, ?_⟩
    · rcases collisionWinnerStep_cases b acc p with hc | ⟨hok, hc⟩
      · rcases ih1 with h | ⟨q, hq, hqok, hqr⟩
        · left; rw [h, hc]
        · right; exact ⟨q, by simp [hq], hqok, hqr⟩
      · rcases ih1 with h | ⟨q, hq, hqok, hqr⟩
        · right; exact ⟨p, by simp, hok, by rw [h, hc]⟩
        · right; exact ⟨q, by simp [hq], hqok, hqr⟩
    · intro q hq hqok
      rcases List.mem_cons.mp hq with rfl | hqt
      · obtain ⟨w₁, hw₁, hle₁⟩ := collisionWinnerStep_dominates b acc q hqok
        obtain ⟨w, hw, hle⟩ := ih3 w₁ hw₁
        exact ⟨w, hw, le_trans hle hle₁⟩
      · exact ih2 q hqt hqok
    · intro w₀ hacc
      obtain ⟨w₁, hw₁, hle₁⟩ := collisionWinnerStep_le b acc p w₀ hacc
      obtain ⟨w, hw, hle⟩ := ih3 w₁ hw₁
      exact ⟨w, hw, le_trans hle hle₁⟩

/-- A getLast? hit is a member. -/
theorem mem_of_getLast?_eq {α : Type} {l : List α} {a : α} (h : l.getLast? = some a) :
    a ∈ l := by
  obtain ⟨hne, rfl⟩ := List.mem_getLast?_eq_getLast (show a ∈ l.getLast? from h)
  exact List.getLast_mem hne

/-- When no corner's overwrite test fires, the corner forEach leaves the flag
unset. -/
theorem cornerFold_false (b : Ball) (corners : List TerrainCorner)
    (hno : ∀ c ∈ corners, ¬ b.getCornerOverwrite c ((b.body.position.sub c.position).mag)) :
    ¬ corners.foldl (fun _ corner =>
        b.getCornerOverwrite corner ((b.body.position.sub corner.position).mag)) False := by
  cases hlast : corners.getLast? with
  | none =>
    have h := List.getLast?_eq_none_iff.mp hlast
    subst h
    simp
  | some c =>
    rw [foldl_const_replace _ _ _ c hlast]
    exact hno c (mem_of_getLast?_eq hlast)

/-- A stored polygon winner always has a strictly positive correction delta. -/
theorem polyWinner_cd_pos (b : Ball) (t : TerrainPolygon) (w : SegmentWinner)
    (h : b.polyWinner t = some w) : 0 < w.correctionDelta := by
  unfold Ball.polyWinner at h
  rw [scanSegmentDistances_eq] at h
  by_cases hc : t.segments ≠ [] ∧ ∀ s ∈ t.segments,
      COLLISION_THRESHOLD < b.getSegmentCollisionDistance s b.body.position
  · rw [if_pos hc] at h
    simp only [Ball.getTerrainObjectCollisionInfo] at h
    by_cases hov : t.corners.foldl
        (fun _ corner =>
          b.getCornerOverwrite corner ((b.body.position.sub corner.position).mag)) False
    · rw [if_pos hov] at h
      cases h
    · rw [if_neg hov] at h
      obtain ⟨h1, -, -⟩ := winnerFold_inv b
        (t.segments.zip (t.segments.map
          (fun s => b.getSegmentCollisionDistance s b.body.position))) none
      rcases h1 with h1 | ⟨p, -, hpok, hpr⟩
      · rw [h1] at h
        cases h
      · rw [hpr] at h
        obtain rfl : w = winnerOf b p := by injection h with h'; exact h'.symm
        show 0 < |p.2 / b.segmentNormalVelocity p.1|
        exact abs_pos.mpr (div_ne_zero (ne_of_gt hpok.1) hpok.2)
  · rw [if_neg hc] at h
    cases h

/-- Per-polygon winner of a single-segment, cornerless polygon. -/
theorem polyWinner_single (b : Ball) (s : TerrainSegment)
    (hθ : COLLISION_THRESHOLD < b.getSegmentCollisionDistance s b.body.position)
    (hbnv : b.segmentNormalVelocity s ≠ 0) :
    b.polyWinner ⟨[s], []⟩ =
      some ⟨s, s.normal, b.getSegmentCollisionDistance s b.body.position,
        |b.getSegmentCollisionDistance s b.body.position / b.segmentNormalVelocity s|⟩ := by
  unfold Ball.polyWinner
  rw [scanSegmentDistances_eq]
  rw [if_pos ⟨by simp, by simpa using hθ⟩]
  show b.getTerrainObjectCollisionInfo [s] [b.getSegmentCollisionDistance s b.body.position]
    [] = _
  simp only [Ball.getTerrainObjectCollisionInfo, List.foldl_nil, if_false, List.zip_cons_cons,
    List.zip_nil_right, List.foldl_cons]
  rw [collisionWinnerStep_none b s _ (lt_trans (by norm_num [COLLISION_THRESHOLD]) hθ) hbnv]

/-- The approach speed of the test ball (moving straight down) against an
upward unit normal is 1. -/
theorem bnv_segA : (mkTestBall ⟨0, 0⟩ ⟨0, -1⟩).segmentNormalVelocity segA = 1 := by
  rw [segmentNormalVelocity_eq, ballNormalVelocityOf_eq_dot]
  · show -(0 : ℝ) * 0 + -(1 : ℝ) * -1 = 1
    norm_num
  · show Real.sqrt (-(0 : ℝ) * -(0 : ℝ) + -(1 : ℝ) * -(1 : ℝ)) = 1
    rw [show -(0 : ℝ) * -(0 : ℝ) + -(1 : ℝ) * -(1 : ℝ) = 1 by norm_num]
    exact Real.sqrt_one

/-- Same approach speed against segB (same upward normal). -/
theorem bnv_segB : (mkTestBall ⟨0, 0⟩ ⟨0, -1⟩).segmentNormalVelocity segB = 1 := by
  rw [segmentNormalVelocity_eq, ballNormalVelocityOf_eq_dot]
  · show -(0 : ℝ) * 0 + -(1 : ℝ) * -1 = 1
    norm_num
  · show Real.sqrt (-(0 : ℝ) * -(0 : ℝ) + -(1 : ℝ) * -(1 : ℝ)) = 1
    rw [show -(0 : ℝ) * -(0 : ℝ) + -(1 : ℝ) * -(1 : ℝ) = 1 by norm_num]
    exact Real.sqrt_one

/-- The test ball's collision distance against segA. -/
theorem dist_segA :
    Ball.getSegmentCollisionDistance (mkTestBall ⟨0, 0⟩ ⟨0, -1⟩) segA
      ((mkTestBall ⟨0, 0⟩ ⟨0, -1⟩).body.position) = 0.01 := by
  norm_num [Ball.getSegmentCollisionDistance, mkTestBall, segA, Vec.dot, Circle.getRadius]

/-- The test ball's collision distance against segB. -/
theorem dist_segB :
    Ball.getSegmentCollisionDistance (mkTestBall ⟨0, 0⟩ ⟨0, -1⟩) segB
      ((mkTestBall ⟨0, 0⟩ ⟨0, -1⟩).body.position) = 0.1 := by
  norm_num [Ball.getSegmentCollisionDistance, mkTestBall, segB, Vec.dot, Circle.getRadius]

/-- Cauchy–Schwarz: the normalised dot product lies in [−1, 1], so p5's
clamp is the identity. -/
theorem normalized_dot_mem (n v : Vec) (hn : n ≠ ⟨0, 0⟩) (hv : v ≠ ⟨0, 0⟩) :
    -1 ≤ n.dot v / (n.mag * v.mag) ∧ n.dot v / (n.mag * v.mag) ≤ 1 := by
  have hnm := n.mag_pos_of_ne hn
  have hvm := v.mag_pos_of_ne hv
  have hd : 0 < n.mag * v.mag := mul_pos hnm hvm
  have hsq : n.dot v * n.dot v ≤ (n.mag * v.mag) * (n.mag * v.mag) := by
    have hl := dot_sq_add_cross_sq n v
    have h1 := n.mul_self_mag
    have h2 := v.mul_self_mag
    nlinarith [sq_nonneg (n.cross v)]
  constructor
  · rw [le_div_iff₀ hd]
    nlinarith
  · rw [div_le_one hd]
    nlinarith

/-- Cosine of the p5 angleBetween. -/
theorem cos_angleBetween (n v : Vec) (hn : n ≠ ⟨0, 0⟩) (hv : v ≠ ⟨0, 0⟩) :
    Real.cos (n.angleBetween v) = n.dot v / (n.mag * v.mag) := by
  obtain ⟨hlo, hhi⟩ := normalized_dot_mem n v hn hv
  unfold Vec.angleBetween
  rw [max_eq_right hlo, min_eq_right hhi]
  split_ifs with h1 h2
  · rw [mul_one, Real.cos_arccos hlo hhi]
  · rw [mul_one, Real.cos_arccos hlo hhi]
  · rw [mul_neg_one, Real.cos_neg, Real.cos_arccos hlo hhi]

/-- Sine of the p5 angleBetween. -/
theorem sin_angleBetween (n v : Vec) (hn : n ≠ ⟨0, 0⟩) (hv : v ≠ ⟨0, 0⟩) :
    Real.sin (n.angleBetween v) = n.cross v / (n.mag * v.mag) := by
  obtain ⟨hlo, hhi⟩ := normalized_dot_mem n v hn hv
  have hnm := n.mag_pos_of_ne hn
  have hvm := v.mag_pos_of_ne hv
  have hd : 0 < n.mag * v.mag := mul_pos hnm hvm
  have hone : 1 - (n.dot v / (n.mag * v.mag)) ^ 2 = (n.cross v / (n.mag * v.mag)) ^ 2 := by
    have hl := dot_sq_add_cross_sq n v
    have h1 := n.mul_self_mag
    have h2 := v.mul_self_mag
    field_simp
    nlinarith
  unfold Vec.angleBetween
  rw [max_eq_right hlo, min_eq_right hhi]
  split_ifs with h1 h2
  · rw [mul_one, Real.sin_arccos, hone, Real.sqrt_sq_eq_abs, abs_div,
      abs_of_pos hd, h1, abs_zero]
  · rw [mul_one, Real.sin_arccos, hone, Real.sqrt_sq_eq_abs, abs_div,
      abs_of_pos hd, abs_of_pos h2]
  · have h2' : n.cross v < 0 := lt_of_le_of_ne (not_lt.mp h2) h1
    rw [mul_neg_one, Real.sin_neg, Real.sin_arccos, hone, Real.sqrt_sq_eq_abs, abs_div,
      abs_of_pos hd, abs_of_neg h2']
    ring

/-- p5's heading-based rotate coincides with the rotation matrix on every
vector (including the zero vector, where both give zero). -/
theorem rotate_eq_matrix (v : Vec) (a : ℝ) :
    v.rotate a = ⟨v.x * Real.cos a - v.y * Real.sin a,
                  v.x * Real.sin a + v.y * Real.cos a⟩ := by
  by_cases hv : v = ⟨0, 0⟩
  · subst hv
    simp only [Vec.rotate, Vec.mag]
    norm_num
  · have hvm := v.mag_pos_of_ne hv
    simp only [Vec.rotate, Vec.mk.injEq]
    rw [Real.cos_add, Real.sin_add, cos_atan2 v hv, sin_atan2 v]
    constructor
    · field_simp
    · field_simp
      ring

/-- The rotate-by-−2×angleBetween-then-negate step of reflectInAir is the
mirror reflection across the plane with unit normal n. -/
theorem reflectStep_eq_mirror (n v : Vec) (hn : n.mag = 1) (hv : v ≠ ⟨0, 0⟩) :
    reflectStep n v = v.sub (n.smul (2 * v.dot n)) := by
  have hn0 : n ≠ ⟨0, 0⟩ := by
    intro h
    rw [h, (Vec.mag_eq_zero_iff _).mpr rfl] at hn
    norm_num at hn
  have hvm := v.mag_pos_of_ne hv
  have hmne : v.mag ≠ 0 := ne_of_gt hvm
  have hm2 := v.mul_self_mag
  have ha : -(n.angleBetween v) * 2 = -(2 * n.angleBetween v) := by ring
  unfold reflectStep
  rw [rotate_eq_matrix, ha, Real.cos_neg, Real.sin_neg, Real.cos_two_mul, Real.sin_two_mul,
    cos_angleBetween n v hn0 hv, sin_angleBetween n v hn0 hv, hn, one_mul]
  unfold Vec.smul Vec.sub Vec.dot Vec.cross
  simp only [Vec.mk.injEq]
  constructor
  · field_simp
    linear_combination (2 * v.mag ^ 2 * n.x * (n.y * v.y + n.x * v.x)) * hm2
  · field_simp
    linear_combination (2 * v.mag ^ 2 * n.y * (n.y * v.y + n.x * v.x)) * hm2

/-- A unit vector dotted with itself gives 1. -/
theorem dot_self_of_unit (n : Vec) (hn : n.mag = 1) : n.dot n = 1 := by
  have h := n.mul_self_mag
  rw [hn] at h
  unfold Vec.dot
  linarith

/-- The deflate step scales the component along the unit normal by 0.8. -/
theorem dot_deflateStep (n v : Vec) (hn : n.mag = 1) :
    n.dot (deflateStep n v) = 0.8 * n.dot v := by
  have hb := ballNormalVelocityOf_eq_dot n v hn
  have hnn := dot_self_of_unit n hn
  unfold deflateStep
  rw [hb]
  unfold Vec.dot Vec.sub Vec.smul
  unfold Vec.dot at hnn
  linear_combination (-(0.2) * (n.x * v.x + n.y * v.y)) * hnn

/-- Mirroring negates the component along the unit normal. -/
theorem dot_reflectStep (n v : Vec) (hn : n.mag = 1) (hv : v ≠ ⟨0, 0⟩) :
    n.dot (reflectStep n v) = -(n.dot v) := by
  have hnn := dot_self_of_unit n hn
  rw [reflectStep_eq_mirror n v hn hv]
  unfold Vec.dot Vec.sub Vec.smul
  unfold Vec.dot at hnn
  linear_combination (-2 * (v.x * n.x + v.y * n.y)) * hnn

/-- The reflection-acceleration clamp only touches the velocity. -/
theorem addReflectionAcceleration_groundSegment (b : Ball) (a : Vec) (sv : Prop) :
    (b.addReflectionAcceleration a sv).groundSegment = b.groundSegment := by
  simp only [Ball.addReflectionAcceleration]
  split_ifs <;> rfl

/-- The reflection-acceleration clamp leaves the loop counter alone. -/
theorem addReflectionAcceleration_loopCounter (b : Ball) (a : Vec) (sv : Prop) :
    (b.addReflectionAcceleration a sv).loopCounter = b.loopCounter := by
  simp only [Ball.addReflectionAcceleration]
  split_ifs <;> rfl

/-- Ground reflection leaves the loop counter alone. -/
theorem reflectOnGround_loopCounter (E : Env) (b : Ball) (co : CollisionObject)
    (sa : Vec) (d : ℝ) :
    (Ball.reflectOnGround E b co sa d).loopCounter = b.loopCounter := by
  cases co <;> simp only [Ball.reflectOnGround] <;> split_ifs <;> rfl

/-- Air reflection leaves the loop counter alone. -/
theorem reflectInAir_loopCounter (E : Env) (b : Ball) (co : CollisionObject)
    (n : Vec) (d : ℝ) :
    (Ball.reflectInAir E b co n d).loopCounter = b.loopCounter := by
  cases co <;> simp only [Ball.reflectInAir] <;> split_ifs <;>
    simp [reflectOnGround_loopCounter, addReflectionAcceleration_loopCounter]

/-- Falling off a ledge leaves the loop counter alone. -/
theorem fallOffGround_loopCounter (E : Env) (b : Ball) (d : ℝ) :
    (Ball.fallOffGround E b d).1.loopCounter = b.loopCounter := by
  simp only [Ball.fallOffGround]
  split_ifs <;> simp [addReflectionAcceleration_loopCounter]

/-- Position correction leaves the loop counter alone. -/
theorem moveOutOfTerrain_loopCounter (b : Ball) (info : ArrayCollisionInfo) (d : ℝ) :
    (b.moveOutOfTerrain info d).loopCounter = b.loopCounter := rfl

/-- One loop body leaves the loop counter alone (the driver increments it
separately). -/
theorem simulateBody_loopCounter (E : Env) (b : Ball) (d : ℝ) :
    (Ball.simulateBody E b d).1.loopCounter = b.loopCounter := by
  simp only [Ball.simulateBody]
  split_ifs with h1 h2 h3
  · exact moveOutOfTerrain_loopCounter b _ d
  · cases hco : Ball.getCollisionObjectAndNormal b with
    | none => rfl
    | some p =>
      cases hgs : b.groundSegment with
      | none =>
        show (Ball.reflectInAir E b p.1 p.2 d).loopCounter = b.loopCounter
        exact reflectInAir_loopCounter E b p.1 p.2 d
      | some s =>
        show (Ball.reflectOnGround E b p.1 b.segmentAcceleration d).loopCounter =
          b.loopCounter
        exact reflectOnGround_loopCounter E b p.1 b.segmentAcceleration d
  · exact fallOffGround_loopCounter E b d
  · rfl

/-- With enough fuel for the 100-iteration cap, the loop result does not
depend on the fuel: the loop intrinsically terminates within the cap. -/
theorem simulateLoop_fuel_irrelevant (E : Env) :
    ∀ (f₁ f₂ : ℕ) (b : Ball) (d : ℝ), b.loopCounter ≤ 100 →
      101 ≤ b.loopCounter + f₁ → 101 ≤ b.loopCounter + f₂ →
      Ball.simulateLoop E f₁ b d = Ball.simulateLoop E f₂ b d := by
  intro f₁
  induction f₁ with
  | zero =>
    intro f₂ b d hc h₁ h₂
    omega
  | succ k ih =>
    intro f₂ b d hc h₁ h₂
    cases f₂ with
    | zero => omega
    | succ m =>
      simp only [Ball.simulateLoop]
      by_cases h100 : 100 ≤ b.loopCounter
      · rw [if_pos h100, if_pos h100]
      · rw [if_neg h100, if_neg h100]
        by_cases hcol : ({(Ball.simulateBody E b d).1 with
            loopCounter := (Ball.simulateBody E b d).1.loopCounter + 1} : Ball).collision
            = true
        · rw [if_pos hcol, if_pos hcol]
          apply ih
          · show (Ball.simulateBody E b d).1.loopCounter + 1 ≤ 100
            rw [simulateBody_loopCounter]
            omega
          · show 101 ≤ (Ball.simulateBody E b d).1.loopCounter + 1 + k
            rw [simulateBody_loopCounter]
            omega
          · show 101 ≤ (Ball.simulateBody E b d).1.loopCounter + 1 + m
            rw [simulateBody_loopCounter]
            omega
        · rw [if_neg hcol, if_neg hcol]

/-- With the loop-counter error check reached, the loop sets the error state
and returns the ball unchanged. -/
theorem simulateLoop_immediate_error (E : Env) (f : ℕ) (b : Ball) (d : ℝ)
    (h : 100 ≤ b.loopCounter) :
    Ball.simulateLoop E (f + 1) b d = (b, true) := by
  simp only [Ball.simulateLoop]
  rw [if_pos h]

/-- The loop reports the error state exactly when a loop head with counter at
least 100 is reachable through the head-to-head step relation. -/
theorem simulateLoop_error_iff (E : Env) :
    ∀ (f : ℕ) (b : Ball) (d : ℝ), b.loopCounter ≤ 100 → 101 ≤ b.loopCounter + f →
      ((Ball.simulateLoop E f b d).2 = true ↔
        ∃ s : Ball × ℝ, Relation.ReflTransGen (SimStep E) (b, d) s ∧
          100 ≤ s.1.loopCounter) := by
  intro f
  induction f with
  | zero =>
    intro b d hc hf
    omega
  | succ k ih =>
    intro b d hc hf
    simp only [Ball.simulateLoop]
    by_cases h100 : 100 ≤ b.loopCounter
    · rw [if_pos h100]
      simp only [true_iff]
      exact ⟨(b, d), Relation.ReflTransGen.refl, h100⟩
    · rw [if_neg h100]
      have hcnt : ({(Ball.simulateBody E b d).1 with
          loopCounter := (Ball.simulateBody E b d).1.loopCounter + 1} : Ball).loopCounter
          = b.loopCounter + 1 := by
        show (Ball.simulateBody E b d).1.loopCounter + 1 = b.loopCounter + 1
        rw [simulateBody_loopCounter]
      by_cases hcol : ({(Ball.simulateBody E b d).1 with
          loopCounter := (Ball.simulateBody E b d).1.loopCounter + 1} : Ball).collision
          = true
      · rw [if_pos hcol]
        have hstep : SimStep E (b, d)
            (({(Ball.simulateBody E b d).1 with
              loopCounter := (Ball.simulateBody E b d).1.loopCounter + 1} : Ball),
             (Ball.simulateBody E b d).2) := by
          unfold SimStep
          exact ⟨show b.loopCounter < 100 by omega, hcol, rfl⟩
        rw [ih _ _ (by rw [hcnt]; omega) (by rw [hcnt]; omega)]
        constructor
        · rintro ⟨s, hr, hs⟩
          exact ⟨s, Relation.ReflTransGen.head hstep hr, hs⟩
        · rintro ⟨s, hr, hs⟩
          rcases Relation.ReflTransGen.cases_head hr with heq | ⟨t, hstep', hr'⟩
          · rw [← heq] at hs
            exact absurd (show 100 ≤ b.loopCounter from hs) h100
          · simp only [SimStep] at hstep'
            obtain ⟨-, -, rfl⟩ := hstep'
            exact ⟨s, hr', hs⟩
      · rw [if_neg hcol]
        simp only [Bool.false_eq_true, false_iff]
        rintro ⟨s, hr, hs⟩
        rcases Relation.ReflTransGen.cases_head hr with heq | ⟨t, hstep', hr'⟩
        · rw [← heq] at hs
          exact absurd (show 100 ≤ b.loopCounter from hs) h100
        · simp only [SimStep] at hstep'
          obtain ⟨-, habs, -⟩ := hstep'
          exact absurd habs hcol

/-! ### Congruence of the detectors in the ball's transient fields

The collision detectors read only the ball's position, radius and velocity
(and, for isOffGround, the ground segment and terrain); the remaining fields
are scratch state. -/

theorem getSegmentCollisionDistance_congr (b b' : Ball)
    (hd : b.body.diameter = b'.body.diameter) (s : TerrainSegment) (p : Vec) :
    b.getSegmentCollisionDistance s p = b'.getSegmentCollisionDistance s p := by
  simp only [Ball.getSegmentCollisionDistance, Circle.getRadius, hd]

theorem getCornerOverwrite_congr (b b' : Ball)
    (hd : b.body.diameter = b'.body.diameter) (hp : b.body.position = b'.body.position)
    (c : TerrainCorner) (dist : ℝ) :
    b.getCornerOverwrite c dist = b'.getCornerOverwrite c dist := by
  simp only [Ball.getCornerOverwrite, Circle.getRadius, hd, hp]

theorem segmentNormalVelocity_congr (b b' : Ball) (hv : b.velocity = b'.velocity)
    (s : TerrainSegment) :
    b.segmentNormalVelocity s = b'.segmentNormalVelocity s := by
  simp only [Ball.segmentNormalVelocity, hv]

theorem scanSegmentDistances_congr (b b' : Ball)
    (hd : b.body.diameter = b'.body.diameter) (hp : b.body.position = b'.body.position)
    (segs : List TerrainSegment) :
    b.scanSegmentDistances segs = b'.scanSegmentDistances segs := by
  rw [scanSegmentDistances_eq, scanSegmentDistances_eq]
  simp only [getSegmentCollisionDistance_congr b b' hd, hp]

theorem getTerrainObjectCollisionInfo_congr (b b' : Ball)
    (hd : b.body.diameter = b'.body.diameter) (hp : b.body.position = b'.body.position)
    (hv : b.velocity = b'.velocity) (segments : List TerrainSegment) (dists : List ℝ)
    (corners : List TerrainCorner) :
    b.getTerrainObjectCollisionInfo segments dists corners =
      b'.getTerrainObjectCollisionInfo segments dists corners := by
  have hstep : b.collisionWinnerStep = b'.collisionWinnerStep := by
    funext acc p
    simp only [Ball.collisionWinnerStep, segmentNormalVelocity_congr b b' hv]
  simp only [Ball.getTerrainObjectCollisionInfo, hstep,
    getCornerOverwrite_congr b b' hd hp, hp]

theorem polyWinner_congr (b b' : Ball)
    (hd : b.body.diameter = b'.body.diameter) (hp : b.body.position = b'.body.position)
    (hv : b.velocity = b'.velocity) (t : TerrainPolygon) :
    b.polyWinner t = b'.polyWinner t := by
  simp only [Ball.polyWinner, scanSegmentDistances_congr b b' hd hp,
    getTerrainObjectCollisionInfo_congr b b' hd hp hv]

theorem getTerrainArrayCollisionInfo_congr (E : Env) (b b' : Ball)
    (hd : b.body.diameter = b'.body.diameter) (hp : b.body.position = b'.body.position)
    (hv : b.velocity = b'.velocity) :
    Ball.getTerrainArrayCollisionInfo E b = Ball.getTerrainArrayCollisionInfo E b' := by
  have hstep : b.terrainStep = b'.terrainStep := by
    funext acc t
    simp only [Ball.terrainStep, polyWinner_congr b b' hd hp hv]
  simp only [Ball.getTerrainArrayCollisionInfo, hstep]

theorem isOffGround_congr (b b' : Ball)
    (hd : b.body.diameter = b'.body.diameter) (hp : b.body.position = b'.body.position)
    (hgs : b.groundSegment = b'.groundSegment) (hgt : b.groundTerrain = b'.groundTerrain) :
    b.isOffGround = b'.isOffGround := by
  simp only [Ball.isOffGround, hgs, hgt, hp,
    getSegmentCollisionDistance_congr b b' hd, getCornerOverwrite_congr b b' hd hp]

/-- jsSign of zero. -/
theorem jsSign_zero (mn : ℝ) : jsSign 0 mn = 0 := by
  unfold jsSign
  rw [if_pos (Or.inl rfl)]

/-- setMag to zero yields the zero vector. -/
theorem Vec.setMag_zero (a : Vec) : a.setMag 0 = ⟨0, 0⟩ := by
  unfold Vec.setMag Vec.smul
  simp

/-- Adding a zero-scaled zero vector moves nothing. -/
theorem Vec.add_zero_smul (p : Vec) (d : ℝ) : p.add ((⟨0, 0⟩ : Vec).smul d) = p := by
  unfold Vec.add Vec.smul
  simp

/-- The zero vector has zero magnitude. -/
theorem Vec.mag_zero : (⟨0, 0⟩ : Vec).mag = 0 := (Vec.mag_eq_zero_iff _).mpr rfl

/-- On a flat horizontal ground segment a resting ball receives no segment
acceleration. -/
theorem getSegmentAcceleration_rest (E : Env) (bb : Ball) (seg : TerrainSegment)
    (delta haa : ℝ) (hseg : bb.groundSegment = some seg) (hdy : seg.direction.y = 0)
    (hvx : bb.velocity.x = 0) (hx : haa = 0) :
    Ball.getSegmentAcceleration E bb haa delta = ⟨0, 0⟩ := by
  simp only [Ball.getSegmentAcceleration, hseg, Option.getD_some, hdy, hvx, hx,
    jsSign_zero, abs_zero, zero_div]
  rw [show E.gravity * (0 - 0 * bb.rollResistanceCoefficient *
    (|seg.direction.x| / seg.direction.mag)) * delta + 0 = 0 by ring]
  exact Vec.setMag_zero _

/-- At rest on a flat horizontal segment with no wind, one accelerate-and-move
step leaves velocity zero and the body untouched. -/
theorem addAcceleration_rest (E : Env) (b : Ball) (seg : TerrainSegment) (delta : ℝ)
    (hseg : b.groundSegment = some seg) (hdy : seg.direction.y = 0)
    (hv : b.velocity = ⟨0, 0⟩) (hw : E.windVelocity = ⟨0, 0⟩) :
    (Ball.addAcceleration E b delta).velocity = ⟨0, 0⟩ ∧
    (Ball.addAcceleration E b delta).body = b.body ∧
    (Ball.addAcceleration E b delta).groundSegment = b.groundSegment ∧
    (Ball.addAcceleration E b delta).groundTerrain = b.groundTerrain := by
  have hax : (Ball.getAirAcceleration E b delta).x = 0 := by
    simp [Ball.getAirAcceleration, hv, hw, Vec.sub]
  have hS : Ball.getSegmentAcceleration E
      {b with airAcceleration := Ball.getAirAcceleration E b delta,
              segmentAcceleration := (⟨0, 0⟩ : Vec)}
      (Ball.getAirAcceleration E b delta).x delta = ⟨0, 0⟩ :=
    getSegmentAcceleration_rest E _ seg delta _ hseg hdy (by rw [hv]) hax
  rw [hseg] at hS
  simp only [Ball.addAcceleration, hseg]
  rw [hS, if_pos Vec.mag_zero]
  refine ⟨rfl, ?_, rfl, rfl⟩
  show {b.body with position := b.body.position.add ((⟨0, 0⟩ : Vec).smul delta)} = b.body
  rw [Vec.add_zero_smul]

/-- A loop body with no detected collision, no pending reflection and the
ball still on its ground segment only clears the scratch flags. -/
theorem simulateBody_no_collision (E : Env) (bb : Ball) (d : ℝ)
    (hc : (Ball.getTerrainArrayCollisionInfo E bb).collisionDistance = 0)
    (hcl : bb.collided = false)
    (hoff : ¬ bb.isOffGround) :
    Ball.simulateBody E bb d = ({bb with collision := false, correctionDeltaSum := 0}, d) := by
  simp only [Ball.simulateBody]
  rw [if_neg (by rw [hc]; simp), if_neg (by rw [hcl]; simp), if_neg hoff]

/-- One loop iteration that ends with the collision flag unset exits the
loop after bumping the counter. -/
theorem simulateLoop_step_exit (E : Env) (f : ℕ) (bb : Ball) (d : ℝ)
    (hc : ¬ 100 ≤ bb.loopCounter)
    (hcol : ¬ ({(Ball.simulateBody E bb d).1 with
      loopCounter := (Ball.simulateBody E bb d).1.loopCounter + 1} : Ball).collision = true) :
    Ball.simulateLoop E (f + 1) bb d =
      ({(Ball.simulateBody E bb d).1 with
        loopCounter := (Ball.simulateBody E bb d).1.loopCounter + 1}, false) := by
  simp only [Ball.simulateLoop]
  rw [if_neg hc, if_neg hcol]

/-- One simulate call on a resting ball (flat ground, no wind, no detected
collision, not off the ground) reports no error and leaves velocity zero and
the body, ground segment and ground terrain unchanged. -/
theorem simulate_rest_step (E : Env) (b : Ball) (seg : TerrainSegment) (delta : ℝ)
    (hseg : b.groundSegment = some seg) (hdy : seg.direction.y = 0)
    (hv : b.velocity = ⟨0, 0⟩) (hw : E.windVelocity = ⟨0, 0⟩)
    (hcol : (Ball.getTerrainArrayCollisionInfo E b).collisionDistance = 0)
    (hoff : ¬ b.isOffGround) :
    (Ball.simulate E b delta).2 = false ∧
    (Ball.simulate E b delta).1.velocity = ⟨0, 0⟩ ∧
    (Ball.simulate E b delta).1.body = b.body ∧
    (Ball.simulate E b delta).1.groundSegment = b.groundSegment ∧
    (Ball.simulate E b delta).1.groundTerrain = b.groundTerrain := by
  obtain ⟨hv0, hbody0, hgs0, hgt0⟩ := addAcceleration_rest E b seg delta hseg hdy hv hw
  have h0v : ((Ball.addAcceleration E b delta).resetCollisionInformation).velocity =
      (⟨0, 0⟩ : Vec) := hv0
  have h0b : ((Ball.addAcceleration E b delta).resetCollisionInformation).body = b.body :=
    hbody0
  have h0gs : ((Ball.addAcceleration E b delta).resetCollisionInformation).groundSegment =
      b.groundSegment := hgs0
  have h0gt : ((Ball.addAcceleration E b delta).resetCollisionInformation).groundTerrain =
      b.groundTerrain := hgt0
  have hdetect : Ball.getTerrainArrayCollisionInfo E
      ((Ball.addAcceleration E b delta).resetCollisionInformation) =
      Ball.getTerrainArrayCollisionInfo E b :=
    getTerrainArrayCollisionInfo_congr E _ b (by rw [h0b]) (by rw [h0b])
      (by rw [h0v, hv])
  have hoff₀ : ¬ ((Ball.addAcceleration E b delta).resetCollisionInformation).isOffGround := by
    rw [isOffGround_congr _ b (by rw [h0b]) (by rw [h0b]) h0gs h0gt]
    exact hoff
  have hc0 : (Ball.getTerrainArrayCollisionInfo E
      ((Ball.addAcceleration E b delta).resetCollisionInformation)).collisionDistance = 0 := by
    rw [hdetect]
    exact hcol
  have hbody := simulateBody_no_collision E
    ((Ball.addAcceleration E b delta).resetCollisionInformation) delta hc0 rfl hoff₀
  have hexit := simulateLoop_step_exit E 100
    ((Ball.addAcceleration E b delta).resetCollisionInformation) delta
    (by
      rw [show ((Ball.addAcceleration E b delta).resetCollisionInformation).loopCounter
        = 0 from rfl]
      omega)
    (by rw [hbody]; simp)
  have hloop : Ball.simulate E b delta =
      ({(Ball.addAcceleration E b delta).resetCollisionInformation with
        collision := false, correctionDeltaSum := 0, loopCounter := 1}, false) := by
    show Ball.simulateLoop E (100 + 1)
      ((Ball.addAcceleration E b delta).resetCollisionInformation) delta = _
    rw [hexit, hbody]
    rfl
  rw [hloop]
  exact ⟨rfl, h0v, h0b, h0gs, h0gt⟩
theorem jsSign_neg (x : ℝ) (h : x < 0) : jsSign x 0 = -1 := by
  unfold jsSign
  rw [if_neg, if_neg (not_lt.mpr (le_of_lt h))]
  rintro (h0 | habs)
  · exact absurd h0 (ne_of_lt h)
  · exact absurd habs (not_lt.mpr (abs_nonneg x))

/-- reflectOnGround against a segment stores that segment as ground segment
whenever the segment's horizontal sign is nonzero, and keeps the previous
ground segment otherwise. -/
theorem reflectOnGround_groundSegment_seg (E : Env) (b' : Ball) (s : TerrainSegment)
    (sa : Vec) (d : ℝ) :
    (Ball.reflectOnGround E b' (CollisionObject.seg s) sa d).groundSegment =
      if jsSign s.direction.x 0 ≠ 0 then some s else b'.groundSegment := by
  simp only [Ball.reflectOnGround]
  split_ifs <;> rfl

/-- Polygons without a stored winner leave the array accumulator unchanged. -/
theorem foldl_terrainStep_none (b : Ball) (l : List TerrainPolygon)
    (acc : ArrayCollisionInfo) (h : ∀ t ∈ l, b.polyWinner t = none) :
    l.foldl b.terrainStep acc = acc := by
  induction l generalizing acc with
  | nil => rfl
  | cons t rest ih =>
    rw [List.foldl_cons]
    have hstep : b.terrainStep acc t = acc := by
      unfold Ball.terrainStep
      rw [h t (by simp)]
    rw [hstep]
    exact ih acc fun t' ht' => h t' (by simp [ht'])

/-- A polygon winner unconditionally overwrites the array accumulator, with
the tie-only normal averaging. -/
theorem terrainStep_some (b : Ball) (acc : ArrayCollisionInfo) (t : TerrainPolygon)
    (w : SegmentWinner) (h : b.polyWinner t = some w) :
    b.terrainStep acc t =
      ⟨some t, some w.segment,
        some (if w.correctionDelta = acc.correctionDelta then
          ((acc.collisionSegmentNormal.getD ⟨0, 0⟩).add w.normal).normalize
        else w.normal),
        w.distance, w.correctionDelta⟩ := by
  unfold Ball.terrainStep
  rw [h]

/-- The per-polygon winner of polyA for the test ball. -/
theorem polyWinnerA :
    (mkTestBall ⟨0, 0⟩ ⟨0, -1⟩).polyWinner polyA = some ⟨segA, ⟨0, 1⟩, 0.01, 0.01⟩ := by
  have h := polyWinner_single (mkTestBall ⟨0, 0⟩ ⟨0, -1⟩) segA
    (by rw [dist_segA]; norm_num [COLLISION_THRESHOLD])
    (by rw [bnv_segA]; norm_num)
  show (mkTestBall ⟨0, 0⟩ ⟨0, -1⟩).polyWinner ⟨[segA], []⟩ = _
  rw [h, dist_segA, bnv_segA]
  norm_num [segA, abs_of_pos]

/-- The per-polygon winner of polyB for the test ball. -/
theorem polyWinnerB :
    (mkTestBall ⟨0, 0⟩ ⟨0, -1⟩).polyWinner polyB = some ⟨segB, ⟨0, 1⟩, 0.1, 0.1⟩ := by
  have h := polyWinner_single (mkTestBall ⟨0, 0⟩ ⟨0, -1⟩) segB
    (by rw [dist_segB]; norm_num [COLLISION_THRESHOLD])
    (by rw [bnv_segB]; norm_num)
  show (mkTestBall ⟨0, 0⟩ ⟨0, -1⟩).polyWinner ⟨[segB], []⟩ = _
  rw [h, dist_segB, bnv_segB]
  norm_num [segB, abs_of_pos]

/-! ## Claims -/

/-- C1: getSegmentCollisionDistance returns the penetration depth
(segment.distance − position·normal) + radius exactly when that depth is
positive and the position passes both radius-inflated border half-plane
tests; in every other case it returns 0. -/
theorem getSegmentCollisionDistance_correct (b : Ball) (s : TerrainSegment) (p : Vec) :
    (0 < s.distance - p.dot s.normal + b.body.getRadius ∧
        -b.body.getRadius < s.startBorderDistance - p.dot s.startBorderNormal ∧
        -b.body.getRadius < s.endBorderDistance - p.dot s.endBorderNormal →
      b.getSegmentCollisionDistance s p = s.distance - p.dot s.normal + b.body.getRadius) ∧
    (¬(0 < s.distance - p.dot s.normal + b.body.getRadius ∧
        -b.body.getRadius < s.startBorderDistance - p.dot s.startBorderNormal ∧
        -b.body.getRadius < s.endBorderDistance - p.dot s.endBorderNormal) →
      b.getSegmentCollisionDistance s p = 0) := by
  constructor
  · rintro ⟨hd, hs, he⟩
    simp only [Ball.getSegmentCollisionDistance]
    rw [if_pos (by linarith : -b.body.getRadius < s.distance - p.dot s.normal),
      if_pos ⟨he, hs⟩]
  · intro h
    simp only [Ball.getSegmentCollisionDistance]
    split_ifs with h1 h2
    · exact absurd ⟨by linarith, h2.2, h2.1⟩ h
    · rfl
    · rfl

/-- Witness for C1: a radius-0.2 ball at the origin against segA. -/
theorem getSegmentCollisionDistance_correct_witness :
    Ball.getSegmentCollisionDistance (mkTestBall ⟨0, 0⟩ ⟨0, -1⟩) segA ⟨0, 0⟩ = 0.01 := by
  have h := (getSegmentCollisionDistance_correct (mkTestBall ⟨0, 0⟩ ⟨0, -1⟩) segA ⟨0, 0⟩).1
    (by norm_num [segA, mkTestBall, Vec.dot, Circle.getRadius])
  rw [h]
  norm_num [segA, mkTestBall, Vec.dot, Circle.getRadius]

/-- C8 counterexample: with velocity (1,1), acceleration (5,5) and no
vertical-segment flag, neither axis passes the clamp, yet the code leaves the
velocity unchanged instead of zeroing the skipped axes as the claim states. -/
theorem addReflectionAcceleration_claim_false :
    (Ball.addReflectionAcceleration (mkTestBall ⟨0, 0⟩ ⟨1, 1⟩) ⟨5, 5⟩ False).velocity =
      ⟨1, 1⟩ ∧
    ¬ |(5 : ℝ)| < |(1 : ℝ)| ∧ (1 : ℝ) ≠ 0 := by
  refine ⟨?_, by norm_num, by norm_num⟩
  simp only [Ball.addReflectionAcceleration, mkTestBall]
  norm_num

/-- C8 (amended): an axis of the reflection acceleration is added only when
its magnitude is below the velocity's on that axis; when exactly one axis
passes, the other axis's velocity is zeroed; the vertical-segment flag forces
the zero-x-accumulate-y branch; and when both axes fail and the flag is off,
the velocity is left unchanged (not zeroed). -/
theorem addReflectionAcceleration_amended (b : Ball) (a : Vec) (sv : Prop) :
    (|a.x| < |b.velocity.x| ∧ |a.y| < |b.velocity.y| →
      (b.addReflectionAcceleration a sv).velocity = b.velocity.add a) ∧
    (¬(|a.x| < |b.velocity.x| ∧ |a.y| < |b.velocity.y|) ∧ (|a.y| < |b.velocity.y| ∨ sv) →
      (b.addReflectionAcceleration a sv).velocity = ⟨0, b.velocity.y + a.y⟩) ∧
    (|a.x| < |b.velocity.x| ∧ ¬ |a.y| < |b.velocity.y| ∧ ¬ sv →
      (b.addReflectionAcceleration a sv).velocity = ⟨b.velocity.x + a.x, 0⟩) ∧
    (¬ |a.x| < |b.velocity.x| ∧ ¬ |a.y| < |b.velocity.y| ∧ ¬ sv →
      (b.addReflectionAcceleration a sv).velocity = b.velocity) := by
  refine ⟨?_, ?_, ?_, ?_⟩
  · intro h
    simp only [Ball.addReflectionAcceleration]
    rw [if_pos h]
  · intro h
    simp only [Ball.addReflectionAcceleration]
    rw [if_neg h.1, if_pos h.2]
  · rintro ⟨hx, hy, hsv⟩
    simp only [Ball.addReflectionAcceleration]
    rw [if_neg (fun hc => hy hc.2), if_neg (by tauto), if_pos hx]
  · rintro ⟨hx, hy, hsv⟩
    simp only [Ball.addReflectionAcceleration]
    rw [if_neg (fun hc => hx hc.1), if_neg (by tauto), if_neg hx]

/-- Witness for the amended C8: both axes pass the clamp and the acceleration
is accumulated on both. -/
theorem addReflectionAcceleration_amended_witness :
    (Ball.addReflectionAcceleration (mkTestBall ⟨0, 0⟩ ⟨1, 1⟩) ⟨1/2, 1/2⟩ False).velocity =
      ⟨3/2, 3/2⟩ := by
  have h := (addReflectionAcceleration_amended (mkTestBall ⟨0, 0⟩ ⟨1, 1⟩) ⟨1/2, 1/2⟩ False).1
    (by norm_num [mkTestBall, abs_lt])
  rw [h]
  norm_num [mkTestBall, Vec.add]

/-- C10: a polygon is treated as colliding only when every segment's distance
exceeds the collision threshold — the scan aborts at the first segment at or
below the threshold, a scan succeeds exactly on a nonempty all-above-threshold
polygon, a polygon with a failing segment leaves the array accumulator
untouched, and the per-polygon winner evaluation runs (on exactly the
collected distances) only once every segment has passed. -/
theorem terrainStep_threshold (b : Ball) :
    (∀ (s : TerrainSegment) (rest : List TerrainSegment),
      b.getSegmentCollisionDistance s b.body.position ≤ COLLISION_THRESHOLD →
      b.scanSegmentDistances (s :: rest) = none) ∧
    (∀ segs : List TerrainSegment, b.scanSegmentDistances segs ≠ none ↔
      (segs ≠ [] ∧ ∀ s ∈ segs,
        COLLISION_THRESHOLD < b.getSegmentCollisionDistance s b.body.position)) ∧
    (∀ (acc : ArrayCollisionInfo) (t : TerrainPolygon),
      (∃ s ∈ t.segments,
        b.getSegmentCollisionDistance s b.body.position ≤ COLLISION_THRESHOLD) →
      b.terrainStep acc t = acc) ∧
    (∀ t : TerrainPolygon, t.segments ≠ [] →
      (∀ s ∈ t.segments,
        COLLISION_THRESHOLD < b.getSegmentCollisionDistance s b.body.position) →
      b.polyWinner t = b.getTerrainObjectCollisionInfo t.segments
        (t.segments.map (fun s => b.getSegmentCollisionDistance s b.body.position))
        t.corners) := by
  refine ⟨?_, ?_, ?_, ?_⟩
  · intro s rest h
    rw [scanSegmentDistances_eq]
    exact if_neg fun hc => absurd (hc.2 s (by simp)) (not_lt.mpr h)
  · intro segs
    rw [scanSegmentDistances_eq]
    by_cases h : segs ≠ [] ∧ ∀ s ∈ segs,
        COLLISION_THRESHOLD < b.getSegmentCollisionDistance s b.body.position
    · rw [if_pos h]
      simpa using h
    · rw [if_neg h]
      simpa using h
  · rintro acc t ⟨s, hs, hle⟩
    have hscan : b.scanSegmentDistances t.segments = none := by
      rw [scanSegmentDistances_eq]
      exact if_neg fun hc => absurd (hc.2 s hs) (not_lt.mpr hle)
    unfold Ball.terrainStep Ball.polyWinner
    rw [hscan]
  · intro t hne hall
    unfold Ball.polyWinner
    rw [scanSegmentDistances_eq, if_pos ⟨hne, hall⟩]

/-- Witness for C10: a far-away ball fails segA's threshold test and polyA
leaves the accumulator unchanged. -/
theorem terrainStep_threshold_witness :
    Ball.terrainStep (mkTestBall ⟨100, 100⟩ ⟨0, 0⟩) ⟨none, none, none, 0, 0⟩ polyA =
      ⟨none, none, none, 0, 0⟩ := by
  refine (terrainStep_threshold (mkTestBall ⟨100, 100⟩ ⟨0, 0⟩)).2.2.1 _ polyA
    ⟨segA, by simp [polyA], ?_⟩
  rw [getSegmentCollisionDistance_miss]
  · norm_num [COLLISION_THRESHOLD]
  · show segA.distance - Vec.dot ⟨100, 100⟩ segA.normal ≤ -(0.4 / 2)
    norm_num [segA, Vec.dot]

/-- C3 counterexample: the polygon [segA] with corners [cornerOut, cornerIn]
— cornerOut satisfies the overwrite predicate for the ball at the origin, yet
the polygon still reports a collision winner, because the code only consults
the overwrite result of the last corner in the list. -/
theorem cornerOverwrite_claim_false :
    Ball.getCornerOverwrite (mkTestBall ⟨0, 0⟩ ⟨0, -1⟩) cornerOut
      (((mkTestBall ⟨0, 0⟩ ⟨0, -1⟩).body.position.sub cornerOut.position).mag) ∧
    Ball.getTerrainObjectCollisionInfo (mkTestBall ⟨0, 0⟩ ⟨0, -1⟩) [segA] [0.01]
      [cornerOut, cornerIn] = some ⟨segA, ⟨0, 1⟩, 0.01, 0.01⟩ := by
  have hmag : ((mkTestBall ⟨0, 0⟩ ⟨0, -1⟩).body.position.sub cornerOut.position).mag = 5 := by
    show Real.sqrt (((0 : ℝ) - -3) * ((0 : ℝ) - -3) + ((0 : ℝ) - -4) * ((0 : ℝ) - -4)) = 5
    rw [show ((0 : ℝ) - -3) * ((0 : ℝ) - -3) + ((0 : ℝ) - -4) * ((0 : ℝ) - -4) = 25 by
      norm_num]
    exact sqrt25
  have hbnv : (mkTestBall ⟨0, 0⟩ ⟨0, -1⟩).segmentNormalVelocity segA = 1 := by
    rw [segmentNormalVelocity_eq, ballNormalVelocityOf_eq_dot]
    · show -(0 : ℝ) * 0 + -(1 : ℝ) * -1 = 1
      norm_num
    · show Real.sqrt (-(0 : ℝ) * -(0 : ℝ) + -(1 : ℝ) * -(1 : ℝ)) = 1
      rw [show -(0 : ℝ) * -(0 : ℝ) + -(1 : ℝ) * -(1 : ℝ) = 1 by norm_num]
      exact Real.sqrt_one
  constructor
  · unfold Ball.getCornerOverwrite
    rw [hmag]
    refine ⟨by norm_num [mkTestBall, Circle.getRadius, COLLISION_THRESHOLD],
      Or.inl ⟨rfl, by show (-4 : ℝ) < (0 : ℝ); norm_num⟩,
      Or.inl ⟨rfl, by show (-3 : ℝ) < (0 : ℝ); norm_num⟩⟩
  · simp only [Ball.getTerrainObjectCollisionInfo]
    rw [foldl_const_replace _ _ _ cornerIn (by simp)]
    rw [if_neg ?notIn]
    case notIn =>
      rintro ⟨-, hv, -⟩
      rcases hv with ⟨-, h4⟩ | ⟨h, -⟩ | h
      · exact absurd h4 (by show ¬ (4 : ℝ) < (0 : ℝ); norm_num)
      · exact absurd h (by show Dir.tp ≠ Dir.btm; simp)
      · exact absurd h (by show Dir.tp ≠ Dir.mid; simp)
    show List.foldl _ none (List.zip [segA] [0.01]) = _
    simp only [List.zip_cons_cons, List.zip_nil_right, List.foldl_cons, List.foldl_nil]
    rw [collisionWinnerStep_none _ _ _ (by norm_num) (by rw [hbnv]; norm_num)]
    rw [hbnv]
    norm_num
    rfl

/-- C3 (amended): a polygon is reported non-colliding when the last corner of
its corner list satisfies the overwrite predicate (the forEach reassigns the
flag, so only the final corner's result survives). -/
theorem cornerOverwrite_last_suppresses (b : Ball) (segments : List TerrainSegment)
    (dists : List ℝ) (corners : List TerrainCorner) (c : TerrainCorner)
    (hlast : corners.getLast? = some c)
    (hover : b.getCornerOverwrite c ((b.body.position.sub c.position).mag)) :
    b.getTerrainObjectCollisionInfo segments dists corners = none := by
  simp only [Ball.getTerrainObjectCollisionInfo]
  rw [foldl_const_replace _ _ _ c hlast, if_pos hover]

/-- C4: for a polygon not suppressed by a corner overwrite, among the
(segment, recorded distance) pairs with positive distance (and finite
quotient, i.e. nonzero projected approach speed — a zero speed gives an
infinite quotient in JS and can never attain the minimum), the function
returns the segment minimizing |distance / approach speed| together with its
normal, its distance, and the minimized quotient as correctionDelta. -/
theorem getTerrainObjectCollisionInfo_min (b : Ball) (segments : List TerrainSegment)
    (dists : List ℝ) (corners : List TerrainCorner)
    (hno : ∀ c ∈ corners, ¬ b.getCornerOverwrite c ((b.body.position.sub c.position).mag))
    (hex : ∃ p ∈ segments.zip dists, 0 < p.2 ∧ b.segmentNormalVelocity p.1 ≠ 0) :
    ∃ w, b.getTerrainObjectCollisionInfo segments dists corners = some w ∧
      (w.segment, w.distance) ∈ segments.zip dists ∧
      0 < w.distance ∧ b.segmentNormalVelocity w.segment ≠ 0 ∧
      w.normal = w.segment.normal ∧
      w.correctionDelta = |w.distance / b.segmentNormalVelocity w.segment| ∧
      ∀ p ∈ segments.zip dists, 0 < p.2 → b.segmentNormalVelocity p.1 ≠ 0 →
        w.correctionDelta ≤ |p.2 / b.segmentNormalVelocity p.1| := by
  obtain ⟨p₀, hp₀, hp₀ok⟩ := hex
  obtain ⟨h1, h2, -⟩ := winnerFold_inv b (segments.zip dists) none
  obtain ⟨w, hw, -⟩ := h2 p₀ hp₀ hp₀ok
  rcases h1 with h1 | ⟨p, hp, hpok, hpr⟩
  · rw [h1] at hw
    cases hw
  · simp only [Ball.getTerrainObjectCollisionInfo]
    rw [if_neg (cornerFold_false b corners hno)]
    refine ⟨winnerOf b p, hpr, ?_, hpok.1, hpok.2, rfl, rfl, ?_⟩
    · show (p.1, p.2) ∈ segments.zip dists
      simpa using hp
    · intro q hq hq1 hq2
      obtain ⟨w', hw', hle⟩ := h2 q hq ⟨hq1, hq2⟩
      rw [hpr] at hw'
      obtain rfl : w' = winnerOf b p := by injection hw' with h'; exact h'.symm
      exact hle

/-- Witness for C4: the one-segment polygon [segA] with distance 0.01. -/
theorem getTerrainObjectCollisionInfo_min_witness :
    ∃ w, Ball.getTerrainObjectCollisionInfo (mkTestBall ⟨0, 0⟩ ⟨0, -1⟩)
        [segA] [0.01] [] = some w ∧
      (w.segment, w.distance) ∈ [segA].zip [(0.01 : ℝ)] ∧
      0 < w.distance ∧
      (mkTestBall ⟨0, 0⟩ ⟨0, -1⟩).segmentNormalVelocity w.segment ≠ 0 ∧
      w.normal = w.segment.normal ∧
      w.correctionDelta =
        |w.distance / (mkTestBall ⟨0, 0⟩ ⟨0, -1⟩).segmentNormalVelocity w.segment| ∧
      ∀ p ∈ [segA].zip [(0.01 : ℝ)], 0 < p.2 →
        (mkTestBall ⟨0, 0⟩ ⟨0, -1⟩).segmentNormalVelocity p.1 ≠ 0 →
        w.correctionDelta ≤
          |p.2 / (mkTestBall ⟨0, 0⟩ ⟨0, -1⟩).segmentNormalVelocity p.1| :=
  getTerrainObjectCollisionInfo_min _ [segA] [0.01] [] (by simp)
    ⟨(segA, 0.01), by simp, by norm_num,
      by show (mkTestBall ⟨0, 0⟩ ⟨0, -1⟩).segmentNormalVelocity segA ≠ 0
         rw [bnv_segA]; norm_num⟩

/-- C2: for a unit collision normal and a nonzero incoming velocity with
positive closing speed, reflectInAir's rotate-by-−2×angleBetween-then-negate
step is exactly the mirror reflection v − 2(v·n)n, the subsequent deflate
step scales the velocity component along n by 0.8 (a 20% reduction), and
consequently the post-bounce magnitude along n is at most the pre-bounce
magnitude along n. -/
theorem reflectInAir_reflection (n v : Vec) (hn : n.mag = 1) (hv : v ≠ ⟨0, 0⟩)
    (hclose : v.dot n < 0) :
    reflectStep n v = v.sub (n.smul (2 * v.dot n)) ∧
    n.dot (deflateStep n (reflectStep n v)) = 0.8 * n.dot (reflectStep n v) ∧
    |n.dot (deflateStep n (reflectStep n v))| ≤ |n.dot v| := by
  refine ⟨reflectStep_eq_mirror n v hn hv, dot_deflateStep n _ hn, ?_⟩
  rw [dot_deflateStep n _ hn, dot_reflectStep n v hn hv, abs_mul, abs_neg]
  have h8 : |(0.8 : ℝ)| = 0.8 := by norm_num
  rw [h8]
  nlinarith [abs_nonneg (n.dot v)]

/-- Witness for C2: normal (0,1), incoming velocity (1,−1). -/
theorem reflectInAir_reflection_witness :
    Vec.mag ⟨0, 1⟩ = 1 ∧ Vec.dot ⟨1, -1⟩ ⟨0, 1⟩ < 0 ∧
    reflectStep ⟨0, 1⟩ ⟨1, -1⟩ =
      Vec.sub ⟨1, -1⟩ (Vec.smul ⟨0, 1⟩ (2 * Vec.dot ⟨1, -1⟩ ⟨0, 1⟩)) := by
  have hn : Vec.mag ⟨0, 1⟩ = 1 := by
    show Real.sqrt ((0 : ℝ) * 0 + 1 * 1) = 1
    rw [show (0 : ℝ) * 0 + 1 * 1 = 1 by norm_num]
    exact Real.sqrt_one
  have hv : (⟨1, -1⟩ : Vec) ≠ ⟨0, 0⟩ := by
    intro h
    injection h with h1 h2
    norm_num at h1
  have hc : Vec.dot ⟨1, -1⟩ ⟨0, 1⟩ < 0 := by norm_num [Vec.dot]
  exact ⟨hn, hc, (reflectInAir_reflection ⟨0, 1⟩ ⟨1, -1⟩ hn hv hc).1⟩

/-- C6: an airborne reflection hands the ball over to rolling (ground
segment/terrain set, reflectOnGround invoked) exactly when the
post-reflection velocity component along the unit collision normal is below
the 0.1 bouncing threshold, the struck object is a terrain segment, and that
segment's direction has negative x; otherwise the ball stays airborne and
its velocity is the clamped corrected air acceleration applied to the
reflected velocity. -/
theorem reflectInAir_transition (E : Env) (b : Ball) (co : CollisionObject) (n : Vec)
    (delta : ℝ) (v₂ : Vec)
    (hb : b.groundSegment = none) (hn : n.mag = 1)
    (hv₀ : b.velocity.sub (b.airAcceleration.smul (b.correctionDeltaSum / delta)) ≠ ⟨0, 0⟩)
    (hv₂ : v₂ = deflateStep n (reflectStep n
      (b.velocity.sub (b.airAcceleration.smul (b.correctionDeltaSum / delta))))) :
    ((Ball.reflectInAir E b co n delta).groundSegment ≠ none ↔
      (n.dot v₂ < BOUNCING_THRESHOLD ∧
        ∃ s, co = CollisionObject.seg s ∧ s.direction.x < 0)) ∧
    (∀ s, co = CollisionObject.seg s → n.dot v₂ < BOUNCING_THRESHOLD →
      s.direction.x < 0 →
      Ball.reflectInAir E b co n delta =
        Ball.reflectOnGround E
          {b with velocity := v₂, groundTerrain := b.collisionTerrain,
                  groundSegment := some s}
          co ⟨0, 0⟩ delta) ∧
    (¬(n.dot v₂ < BOUNCING_THRESHOLD ∧
        ∃ s, co = CollisionObject.seg s ∧ s.direction.x < 0) →
      (Ball.reflectInAir E b co n delta).groundSegment = none ∧
      (Ball.reflectInAir E b co n delta).velocity =
        (Ball.addReflectionAcceleration
          {b with velocity := v₂,
                  airAcceleration :=
                    Ball.getAirAcceleration E {b with velocity := v₂} b.correctionDeltaSum}
          (Ball.getAirAcceleration E {b with velocity := v₂} b.correctionDeltaSum)
          (match co with
           | CollisionObject.seg s => s.direction.x = 0
           | CollisionObject.corner _ => False)).velocity) := by
  have hm : 0 < (b.velocity.sub (b.airAcceleration.smul (b.correctionDeltaSum / delta))).mag :=
    Vec.mag_pos_of_ne _ hv₀
  have hbnv : ballNormalVelocityOf n v₂ = n.dot v₂ := ballNormalVelocityOf_eq_dot n v₂ hn
  cases co with
  | corner c =>
    simp only [Ball.reflectInAir, if_pos hm]
    rw [← hv₂, hbnv]
    rw [if_neg (by rintro ⟨-, hfalse⟩; exact hfalse)]
    refine ⟨?_, ?_, ?_⟩
    · simp only [addReflectionAcceleration_groundSegment, hb, ne_eq, not_true_eq_false,
        false_iff, not_and]
      rintro - ⟨s, hs, -⟩
      exact CollisionObject.noConfusion hs
    · intro s hs
      exact CollisionObject.noConfusion hs
    · rintro -
      refine ⟨?_, rfl⟩
      simp only [addReflectionAcceleration_groundSegment, hb]
  | seg s =>
    simp only [Ball.reflectInAir, if_pos hm]
    rw [← hv₂, hbnv]
    by_cases hcond : n.dot v₂ < BOUNCING_THRESHOLD ∧ s.direction.x < 0
    · rw [if_pos hcond]
      refine ⟨?_, ?_, ?_⟩
      · rw [reflectOnGround_groundSegment_seg,
          if_pos (by rw [jsSign_neg _ hcond.2]; norm_num)]
        simp only [ne_eq, reduceCtorEq, not_false_eq_true, true_iff]
        exact ⟨hcond.1, s, rfl, hcond.2⟩
      · intro s' hs' h1 h2
        obtain rfl : s' = s := by injection hs' with h; exact h.symm
        rfl
      · rintro hneg
        exact absurd ⟨hcond.1, s, rfl, hcond.2⟩ hneg
    · rw [if_neg hcond]
      refine ⟨?_, ?_, ?_⟩
      · simp only [addReflectionAcceleration_groundSegment, hb, ne_eq, not_true_eq_false,
          false_iff, not_and]
        rintro h1 ⟨s', hs', h2⟩
        obtain rfl : s' = s := by injection hs' with h; exact h.symm
        exact hcond ⟨h1, h2⟩
      · intro s' hs' h1 h2
        obtain rfl : s' = s := by injection hs' with h; exact h.symm
        exact absurd ⟨h1, h2⟩ hcond
      · rintro -
        refine ⟨?_, rfl⟩
        simp only [addReflectionAcceleration_groundSegment, hb]

/-- C7: the simulate sub-step loop always terminates — with fuel for the
100-iteration cap the result is fuel-independent; whenever a loop head is
reached with the sub-step counter at 100 the global state is set to Error
and the call returns immediately with the ball unchanged (a total function,
so nothing is thrown); and a simulate call reports the Error state exactly
when some loop head with counter ≥ 100 is reachable. Over the exact reals
the NaN/Infinity disjuncts of the source's head check are uninhabited, so
the head condition reduces to the counter test. -/
theorem simulate_error_characterization (E : Env) (b : Ball) (delta : ℝ) :
    (∀ (f₁ f₂ : ℕ) (b' : Ball) (d : ℝ), b'.loopCounter ≤ 100 →
      101 ≤ b'.loopCounter + f₁ → 101 ≤ b'.loopCounter + f₂ →
      Ball.simulateLoop E f₁ b' d = Ball.simulateLoop E f₂ b' d) ∧
    (∀ (f : ℕ) (b' : Ball) (d : ℝ), 100 ≤ b'.loopCounter →
      Ball.simulateLoop E (f + 1) b' d = (b', true)) ∧
    ((Ball.simulate E b delta).2 = true ↔
      ∃ s : Ball × ℝ,
        Relation.ReflTransGen (SimStep E)
          ((Ball.addAcceleration E b delta).resetCollisionInformation, delta) s ∧
        100 ≤ s.1.loopCounter) := by
  refine ⟨fun f₁ f₂ b' d => simulateLoop_fuel_irrelevant E f₁ f₂ b' d,
    fun f b' d => simulateLoop_immediate_error E f b' d, ?_⟩
  unfold Ball.simulate
  exact simulateLoop_error_iff E 101
    ((Ball.addAcceleration E b delta).resetCollisionInformation) delta
    (by show (0 : ℕ) ≤ 100; omega) (by show 101 ≤ 0 + 101; omega)

/-- Witness for C7: with the counter already at the cap, one fueled step
reports the error state and leaves the ball untouched. -/
theorem simulate_error_characterization_witness :
    Ball.simulateLoop restEnv 1
      {mkTestBall ⟨0, 0⟩ ⟨0, 0⟩ with loopCounter := 100} 1 =
      ({mkTestBall ⟨0, 0⟩ ⟨0, 0⟩ with loopCounter := 100}, true) :=
  (simulate_error_characterization restEnv (mkTestBall ⟨0, 0⟩ ⟨0, 0⟩) 1).2.1 0
    {mkTestBall ⟨0, 0⟩ ⟨0, 0⟩ with loopCounter := 100} 1 (by norm_num)

/-- C9: a ball at rest (zero velocity) on a flat horizontal ground segment
with zero wind — neither colliding with terrain nor past its segment's span —
keeps exactly zero velocity and an unchanged body through any number of
successive simulate calls with arbitrary deltas. -/
theorem simulate_rest_idempotent (E : Env) (seg : TerrainSegment)
    (hdy : seg.direction.y = 0)
    (hw : E.windVelocity = ⟨0, 0⟩) :
    ∀ (ds : List ℝ) (b : Ball), b.groundSegment = some seg → b.velocity = ⟨0, 0⟩ →
      (Ball.getTerrainArrayCollisionInfo E b).collisionDistance = 0 → ¬ b.isOffGround →
      (ds.foldl (fun s d => (Ball.simulate E s d).1) b).velocity = ⟨0, 0⟩ ∧
      (ds.foldl (fun s d => (Ball.simulate E s d).1) b).body = b.body := by
  intro ds
  induction ds with
  | nil =>
    intro b h1 h2 h3 h4
    exact ⟨h2, rfl⟩
  | cons d rest ih =>
    intro b h1 h2 h3 h4
    rw [List.foldl_cons]
    obtain ⟨herr, hvel, hbody, hgs, hgt⟩ := simulate_rest_step E b seg d h1 hdy h2 hw h3 h4
    have ih' := ih (Ball.simulate E b d).1 (by rw [hgs, h1]) hvel
      (by
        rw [getTerrainArrayCollisionInfo_congr E (Ball.simulate E b d).1 b
          (by rw [hbody]) (by rw [hbody]) (by rw [hvel, h2])]
        exact h3)
      (by
        rw [isOffGround_congr (Ball.simulate E b d).1 b
          (by rw [hbody]) (by rw [hbody]) hgs hgt]
        exact h4)
    exact ⟨ih'.1, by rw [ih'.2, hbody]⟩

/-- Witness for C9: the resting ball on the flat ground segment, two calls. -/
theorem simulate_rest_idempotent_witness :
    ([1, 1/2].foldl (fun s d => (Ball.simulate restEnv s d).1) restBall).velocity =
      ⟨0, 0⟩ ∧
    ([1, 1/2].foldl (fun s d => (Ball.simulate restEnv s d).1) restBall).body =
      restBall.body := by
  refine simulate_rest_idempotent restEnv flatSeg ?_ rfl [1, 1/2] restBall rfl rfl rfl ?_
  · rfl
  · show ¬ Ball.isOffGround restBall
    simp only [Ball.isOffGround, restBall, mkTestBall, polyFlat, flatSeg]
    norm_num [Ball.getSegmentCollisionDistance, Vec.dot, Vec.sub, Vec.smul,
      Circle.getRadius, COLLISION_THRESHOLD]

/-- Witness for C6: the test ball hitting segA in the air. -/
theorem reflectInAir_transition_witness :
    (mkTestBall ⟨0, 0⟩ ⟨1, -1⟩).groundSegment = none ∧
    Vec.mag ⟨0, 1⟩ = 1 ∧
    ((mkTestBall ⟨0, 0⟩ ⟨1, -1⟩).velocity.sub
      ((mkTestBall ⟨0, 0⟩ ⟨1, -1⟩).airAcceleration.smul
        ((mkTestBall ⟨0, 0⟩ ⟨1, -1⟩).correctionDeltaSum / 1)) ≠ ⟨0, 0⟩) ∧
    ((Ball.reflectInAir restEnv (mkTestBall ⟨0, 0⟩ ⟨1, -1⟩)
        (CollisionObject.seg segA) ⟨0, 1⟩ 1).groundSegment ≠ none ↔
      (Vec.dot ⟨0, 1⟩ (deflateStep ⟨0, 1⟩ (reflectStep ⟨0, 1⟩
        ((mkTestBall ⟨0, 0⟩ ⟨1, -1⟩).velocity.sub
          ((mkTestBall ⟨0, 0⟩ ⟨1, -1⟩).airAcceleration.smul
            ((mkTestBall ⟨0, 0⟩ ⟨1, -1⟩).correctionDeltaSum / 1))))) < BOUNCING_THRESHOLD ∧
        ∃ s, CollisionObject.seg segA = CollisionObject.seg s ∧ s.direction.x < 0)) := by
  have hn : Vec.mag ⟨0, 1⟩ = 1 := by
    show Real.sqrt ((0 : ℝ) * 0 + 1 * 1) = 1
    rw [show (0 : ℝ) * 0 + 1 * 1 = 1 by norm_num]
    exact Real.sqrt_one
  have hv₀ : (mkTestBall ⟨0, 0⟩ ⟨1, -1⟩).velocity.sub
      ((mkTestBall ⟨0, 0⟩ ⟨1, -1⟩).airAcceleration.smul
        ((mkTestBall ⟨0, 0⟩ ⟨1, -1⟩).correctionDeltaSum / 1)) ≠ (⟨0, 0⟩ : Vec) := by
    intro h
    have hx := congrArg Vec.x h
    norm_num [mkTestBall, Vec.sub, Vec.smul] at hx
  exact ⟨rfl, hn, hv₀,
    (reflectInAir_transition restEnv (mkTestBall ⟨0, 0⟩ ⟨1, -1⟩)
      (CollisionObject.seg segA) ⟨0, 1⟩ 1 _ rfl hn hv₀ rfl).1⟩

/-- C5 counterexample: with the two polygons of envAB, the earlier polygon's
winner has correctionDelta 0.01 < 0.1, yet the reported collision is the
later polygon's with correctionDelta 0.1 — the code never compares correction
deltas, so the reported winner is not the smallest seen so far. -/
theorem getTerrainArrayCollisionInfo_claim_false :
    (Ball.getTerrainArrayCollisionInfo envAB
      (mkTestBall ⟨0, 0⟩ ⟨0, -1⟩)).correctionDelta = 0.1 ∧
    (Ball.getTerrainArrayCollisionInfo envAB
      (mkTestBall ⟨0, 0⟩ ⟨0, -1⟩)).collisionTerrain = some polyB ∧
    Option.map SegmentWinner.correctionDelta
      ((mkTestBall ⟨0, 0⟩ ⟨0, -1⟩).polyWinner polyA) = some 0.01 ∧
    (0.01 : ℝ) < 0.1 := by
  have harr : Ball.getTerrainArrayCollisionInfo envAB (mkTestBall ⟨0, 0⟩ ⟨0, -1⟩) =
      ⟨some polyB, some segB, some ⟨0, 1⟩, 0.1, 0.1⟩ := by
    unfold Ball.getTerrainArrayCollisionInfo
    show List.foldl _ _ [polyA, polyB] = _
    rw [List.foldl_cons, List.foldl_cons, List.foldl_nil,
      terrainStep_some _ _ polyA _ polyWinnerA]
    rw [terrainStep_some _ _ polyB _ polyWinnerB]
    norm_num
  rw [harr, polyWinnerA]
  norm_num

/-- C5 (amended): the globally reported collision is that of the last polygon
in iteration order that produced a winner at all — each winner unconditionally
overwrites the stored one; only when the new winner's correctionDelta exactly
equals the stored one are the two normals summed and renormalized. -/
theorem getTerrainArrayCollisionInfo_last_winner (E : Env) (b : Ball)
    (l : List TerrainPolygon) (t₁ t₂ : TerrainPolygon) (w₁ w₂ : SegmentWinner)
    (hE : E.terrainArray = l ++ [t₁, t₂])
    (hl : ∀ t ∈ l, b.polyWinner t = none)
    (h₁ : b.polyWinner t₁ = some w₁) (h₂ : b.polyWinner t₂ = some w₂) :
    b.getTerrainArrayCollisionInfo E =
      ⟨some t₂, some w₂.segment,
        some (if w₂.correctionDelta = w₁.correctionDelta then
          (w₁.normal.add w₂.normal).normalize else w₂.normal),
        w₂.distance, w₂.correctionDelta⟩ := by
  unfold Ball.getTerrainArrayCollisionInfo
  rw [hE, List.foldl_append, foldl_terrainStep_none b l _ hl, List.foldl_cons,
    List.foldl_cons, List.foldl_nil, terrainStep_some b _ t₁ w₁ h₁]
  rw [show ((⟨some t₁, some w₁.segment,
      some (if w₁.correctionDelta = (⟨none, none, none, 0, 0⟩ :
        ArrayCollisionInfo).correctionDelta then
        (((⟨none, none, none, 0, 0⟩ : ArrayCollisionInfo).collisionSegmentNormal.getD
          ⟨0, 0⟩).add w₁.normal).normalize
      else w₁.normal),
      w₁.distance, w₁.correctionDelta⟩ : ArrayCollisionInfo)) =
      ⟨some t₁, some w₁.segment, some w₁.normal, w₁.distance, w₁.correctionDelta⟩ by
    rw [if_neg (ne_of_gt (polyWinner_cd_pos b t₁ w₁ h₁))]]
  rw [terrainStep_some b _ t₂ w₂ h₂]
  rfl

/-- Witness for the amended C5: envAB's two polygons, no tie, the later
polygon polyB is reported. -/
theorem getTerrainArrayCollisionInfo_last_winner_witness :
    Ball.getTerrainArrayCollisionInfo envAB (mkTestBall ⟨0, 0⟩ ⟨0, -1⟩) =
      ⟨some polyB, some segB, some ⟨0, 1⟩, 0.1, 0.1⟩ := by
  have h := getTerrainArrayCollisionInfo_last_winner envAB (mkTestBall ⟨0, 0⟩ ⟨0, -1⟩)
    [] polyA polyB _ _ rfl (by simp) polyWinnerA polyWinnerB
  rw [h]
  norm_num

/-- Witness for the amended C3: with the corner order reversed the
overwriting corner is last and the polygon is suppressed. -/
theorem cornerOverwrite_last_suppresses_witness :
    Ball.getTerrainObjectCollisionInfo (mkTestBall ⟨0, 0⟩ ⟨0, -1⟩) [segA] [0.01]
      [cornerIn, cornerOut] = none := by
  have hmag : ((mkTestBall ⟨0, 0⟩ ⟨0, -1⟩).body.position.sub cornerOut.position).mag = 5 := by
    show Real.sqrt (((0 : ℝ) - -3) * ((0 : ℝ) - -3) + ((0 : ℝ) - -4) * ((0 : ℝ) - -4)) = 5
    rw [show ((0 : ℝ) - -3) * ((0 : ℝ) - -3) + ((0 : ℝ) - -4) * ((0 : ℝ) - -4) = 25 by
      norm_num]
    exact sqrt25
  refine cornerOverwrite_last_suppresses _ _ _ _ cornerOut (by simp) ?_
  unfold Ball.getCornerOverwrite
  rw [hmag]
  exact ⟨by norm_num [mkTestBall, Circle.getRadius, COLLISION_THRESHOLD],
    Or.inl ⟨rfl, by show (-4 : ℝ) < (0 : ℝ); norm_num⟩,
    Or.inl ⟨rfl, by show (-3 : ℝ) < (0 : ℝ); norm_num⟩⟩

end

end Minigolf
